import Mathlib

/-!
Verification development for the `preprocess_cancellation` G-code
annotation tool (file `moonraker/components/file_manager/preprocess_cancellation.py`).

The Python source is shallowly embedded: files are Lean `String`s, Python
file iteration is `pyLines`, Python floats are modelled as exact rationals
(`ℚ`) tagged with an int/float flag for `str()` rendering, fallible Python
code (exceptions, `return None`) is modelled with `Except PyErr`.
String primitives are implemented over `List Char` so that the kernel can
evaluate them on concrete inputs.
-/

attribute [local semireducible] Rat.add Rat.mul Rat.sub Rat.inv Rat.ofScientific

set_option maxRecDepth 100000

/-- Errors a per-file run can produce.  `noSlicerFound` models the
`return` (value `None`) taken when the leading comment block ends without a
slicer marker; `processorNone` models the `TypeError` raised when the
detection loop finishes with `processor` still `None`; the rest model the
corresponding Python exceptions raised by the dialect parsers. -/
inductive PyErr where
  | keyError
  | valueError
  | typeError
  | assertionError
  | runtimeError
  | jsonDecodeError
  | noSlicerFound
  | processorNone
  deriving DecidableEq, Repr

deriving instance DecidableEq for Except

/-- Python `str.isspace` characters relevant here (ASCII whitespace). -/
def isPyWs (c : Char) : Bool :=
  c = ' ' || c = '\t' || c = '\n' || c = '\r' || c = '\x0b' || c = '\x0c'

/-- ASCII decimal digit test. -/
def isDigitCh (c : Char) : Bool := '0' ≤ c && c ≤ '9'

/-- ASCII alphanumeric test (models Python `\w` without the underscore for
the ASCII identifiers this tool handles). -/
def isAlnumCh (c : Char) : Bool :=
  ('a' ≤ c && c ≤ 'z') || ('A' ≤ c && c ≤ 'Z') || isDigitCh c

/-- Python regex `\w` (word character): alphanumeric or underscore. -/
def isWordCh (c : Char) : Bool := isAlnumCh c || c = '_'

/-- String built from a character list. -/
def chStr (cs : List Char) : String := String.mk cs

/-- Python `a.startswith(b)`. -/
def pyStartsWith (s pre : String) : Bool := pre.data.isPrefixOf s.data

/-- Python `str.strip()` (both ends, whitespace). -/
def pyStrip (s : String) : String :=
  chStr (((s.data.dropWhile isPyWs).reverse.dropWhile isPyWs).reverse)

/-- Python `str.strip("_")`. -/
def pyStripUnderscore (s : String) : String :=
  chStr (((s.data.dropWhile (· = '_')).reverse.dropWhile (· = '_')).reverse)

/-- Python `str.lower()` (ASCII model). -/
def pyLower (s : String) : String := chStr (s.data.map Char.toLower)

/-- Helper for `pyLines`: split after every newline, keeping the newline. -/
def pyLinesAux : List Char → List Char → List String
  | acc, [] => if acc.isEmpty then [] else [chStr acc.reverse]
  | acc, c :: cs =>
      if c = '\n' then chStr (acc.reverse ++ ['\n']) :: pyLinesAux [] cs
      else pyLinesAux (c :: acc) cs

/-- Iterating a Python text file yields its lines, each keeping its trailing
newline; a final fragment without a newline is still yielded. -/
def pyLines (s : String) : List String := pyLinesAux [] s.data

/-- Concatenation of the fragments a generator yielded, i.e. the file
content `outfile` ends up with. -/
def pyJoin (l : List String) : String := chStr (l.foldr (fun s acc => s.data ++ acc) [])

/-- Helper for `pySplitWs`. -/
def pySplitWsAux : List Char → List Char → List String
  | cur, [] => if cur.isEmpty then [] else [chStr cur.reverse]
  | cur, c :: cs =>
      if isPyWs c then
        if cur.isEmpty then pySplitWsAux [] cs
        else chStr cur.reverse :: pySplitWsAux [] cs
      else pySplitWsAux (c :: cur) cs

/-- Python `str.split()` with no argument: split on whitespace runs,
discarding empty tokens. -/
def pySplitWs (s : String) : List String := pySplitWsAux [] s.data

/-- Helper for `pySplitChar`. -/
def pySplitCharAux (sep : Char) : List Char → List Char → List String
  | cur, [] => [chStr cur.reverse]
  | cur, c :: cs =>
      if c = sep then chStr cur.reverse :: pySplitCharAux sep [] cs
      else pySplitCharAux sep (c :: cur) cs

/-- Python `str.split(sep)` for a single-character separator, keeping empty
pieces (so `"a:b".split(":") = ["a", "b"]` and `"".split(":") = [""]`). -/
def pySplitChar (sep : Char) (s : String) : List String := pySplitCharAux sep [] s.data

/-- Helper for `pySplitOnce1`: characters after the first occurrence of
`sep`, or `none` when `sep` does not occur. -/
def afterFirst (sep : Char) : List Char → Option (List Char)
  | [] => none
  | c :: cs => if c = sep then some cs else afterFirst sep cs

/-- Python `s.split(sep, maxsplit=1)[1]`: everything after the first
occurrence of the character, or an `IndexError` when it does not occur. -/
def pySplitOnce1 (sep : Char) (s : String) : Except PyErr String :=
  match afterFirst sep s.data with
  | some rest => .ok (chStr rest)
  | none => .error .valueError

/-- Finds the first occurrence of `sep` in `cs`: returns the characters
before it and the characters after it. -/
def findSub (sep : List Char) : List Char → Option (List Char × List Char)
  | [] => if sep.isEmpty then some ([], []) else none
  | c :: cs =>
      if sep.isPrefixOf (c :: cs) then some ([], (c :: cs).drop sep.length)
      else match findSub sep cs with
        | some (pre, post) => some (c :: pre, post)
        | none => none

/-- Helper for `pySplitSub` with explicit fuel. -/
def pySplitSubAux (sep : List Char) : Nat → List Char → List String
  | 0, cs => [chStr cs]
  | fuel + 1, cs =>
      match findSub sep cs with
      | none => [chStr cs]
      | some (pre, post) => chStr pre :: pySplitSubAux sep fuel post

/-- Python `str.split(sep)` for a multi-character separator string. -/
def pySplitSub (sep : String) (s : String) : List String :=
  pySplitSubAux sep.data (s.data.length + 1) s.data

/-- Indexing `xs[1]` on a Python list, raising `IndexError` (modelled as
`valueError` family is not needed; lists here come from `split`, and the
guarding `startswith` checks make the index valid) when absent. -/
def pyIdx1 (xs : List String) : Except PyErr String :=
  match xs with
  | _ :: x :: _ => .ok x
  | _ => .error .valueError

/-- Decimal digits of a natural number (with fuel, most significant first). -/
def natDigitsAux : Nat → Nat → List Char
  | 0, _ => []
  | fuel + 1, n =>
      if n < 10 then [Char.ofNat (48 + n)]
      else natDigitsAux fuel (n / 10) ++ [Char.ofNat (48 + n % 10)]

/-- Python `str(n)` for a natural number. -/
def natToStr (n : Nat) : String := chStr (natDigitsAux (n + 1) n)

/-- Python `str(n)` for an integer. -/
def intToStr (n : Int) : String :=
  if n < 0 then chStr ('-' :: (natToStr n.natAbs).data) else natToStr n.natAbs

/-- Value of a list of decimal digit characters. -/
def digitsVal (cs : List Char) : Nat :=
  cs.foldl (fun acc c => acc * 10 + (c.toNat - 48)) 0

/-- Python `int(s)`: optional surrounding whitespace, optional sign, then
decimal digits; anything else raises `ValueError`. -/
def parsePyInt (s : String) : Except PyErr Int :=
  let cs := (pyStrip s).data
  let (sgn, rest) :=
    match cs with
    | '-' :: r => ((-1 : Int), r)
    | '+' :: r => ((1 : Int), r)
    | r => ((1 : Int), r)
  if rest.isEmpty || rest.any (fun c => !isDigitCh c) then .error .valueError
  else .ok (sgn * (digitsVal rest : Int))

/-- Python `float(s)` modelled with exact rational arithmetic: optional
sign, decimal digits with optional fractional part and optional exponent.
Special forms Python also accepts (`inf`, `nan`, digit underscores) are
modelled as `ValueError`; the G-code this tool processes uses plain
decimals. -/
def parsePyFloat (s : String) : Except PyErr ℚ :=
  let cs := (pyStrip s).data
  let (sgn, r1) :=
    match cs with
    | '-' :: r => ((-1 : ℚ), r)
    | '+' :: r => ((1 : ℚ), r)
    | r => ((1 : ℚ), r)
  let intPart := r1.takeWhile isDigitCh
  let r2 := r1.dropWhile isDigitCh
  let (fracPart, r3) :=
    match r2 with
    | '.' :: r => (r.takeWhile isDigitCh, r.dropWhile isDigitCh)
    | r => ([], r)
  if intPart.isEmpty && fracPart.isEmpty then .error .valueError
  else
    let base : ℚ := (digitsVal intPart : ℚ) + (digitsVal fracPart : ℚ) / ((10 : ℚ) ^ fracPart.length)
    match r3 with
    | [] => .ok (sgn * base)
    | e :: r4 =>
        if e = 'e' || e = 'E' then
          let (esgn, r5) :=
            match r4 with
            | '-' :: r => (false, r)
            | '+' :: r => (true, r)
            | r => (true, r)
          let eDigits := r5.takeWhile isDigitCh
          let r6 := r5.dropWhile isDigitCh
          if eDigits.isEmpty || !r6.isEmpty then .error .valueError
          else
            let m := digitsVal eDigits
            .ok (sgn * base * (if esgn then ((10 : ℚ) ^ m) else ((10 : ℚ) ^ m)⁻¹))
        else .error .valueError

/-- A Python number: an `int` or a `float`, with its exact value.  The
`isFloat` flag records which, since `str()` renders `1` and `1.0`
differently. -/
structure PyNum where
  isFloat : Bool
  val : ℚ
  deriving DecidableEq, Repr

/-- Decimal expansion of the fractional part `num/den` (with fuel); used to
render terminating decimals the way `str(float)` does. -/
def fracDigits : Nat → Nat → Nat → List Char
  | 0, _, _ => []
  | _, 0, _ => []
  | fuel + 1, num, den =>
      let d := num * 10 / den
      let r := num * 10 % den
      Char.ofNat (48 + d) :: fracDigits fuel r den

/-- Python `str(x)` for a number.  Integers render as their digits; floats
render with a decimal point.  (Python's shortest-roundtrip `repr` of a
float coincides with this for the short terminating decimals appearing in
this development.) -/
def pyStrNum (n : PyNum) : String :=
  if n.isFloat then
    let s := if n.val < 0 then "-" else ""
    let a := n.val.num.natAbs
    let d := n.val.den
    let ip := natToStr (a / d)
    let fr := fracDigits 40 (a % d) d
    if fr.isEmpty then s ++ ip ++ ".0" else s ++ ip ++ "." ++ chStr fr
  else intToStr n.val.num

/-- Convenience constructor for float-typed values. -/
def pyFloat (q : ℚ) : PyNum := ⟨true, q⟩

/-- Convenience constructor for int-typed values. -/
def pyInt (z : Int) : PyNum := ⟨false, z⟩

/-- A parsed JSON value, as `json.loads` produces it.  Numbers keep the
int/float distinction the Python parser makes (a literal with a fraction
or exponent becomes a `float`). -/
inductive Json where
  | null
  | bool (b : Bool)
  | num (n : PyNum)
  | str (s : String)
  | arr (elems : List Json)
  | obj (fields : List (String × Json))

/-- Python truthiness of a parsed JSON value (`if center:` and
`if boundingbox_center and boundingbox_size:` in the source). -/
def jTruthy : Json → Bool
  | .null => false
  | .bool b => b
  | .num n => n.val ≠ 0
  | .str s => !s.data.isEmpty
  | .arr l => !l.isEmpty
  | .obj f => !f.isEmpty

/-- Dictionary lookup `d[k]` / `d.get(k)` on a parsed JSON object. -/
def jGet (fields : List (String × Json)) (k : String) : Option Json :=
  (fields.find? (fun e => e.1 == k)).map (·.2)

/-- Dictionary assignment `d[k] = v`: replaces the value at an existing
key or appends a new binding (Python dicts keep insertion order). -/
def jSet (fields : List (String × Json)) (k : String) (v : Json) : List (String × Json) :=
  if (fields.find? (fun e => e.1 == k)).isSome then
    fields.map (fun e => if e.1 == k then (e.1, v) else e)
  else fields ++ [(k, v)]

/-- Skip JSON whitespace. -/
def jSkipWs (cs : List Char) : List Char :=
  cs.dropWhile (fun c => c = ' ' || c = '\t' || c = '\n' || c = '\r')

/-- Parse the body of a JSON string literal (after the opening quote),
handling the standard escapes. -/
def jStringBody : List Char → Option (List Char × List Char)
  | [] => none
  | '"' :: rest => some ([], rest)
  | '\\' :: e :: rest =>
      match e with
      | 'u' =>
          match rest with
          | a :: b :: c :: d :: rest' =>
              let hex := fun (x : Char) =>
                if isDigitCh x then some (x.toNat - 48)
                else if 'a' ≤ x && x ≤ 'f' then some (x.toNat - 87)
                else if 'A' ≤ x && x ≤ 'F' then some (x.toNat - 55)
                else none
              match hex a, hex b, hex c, hex d with
              | some ha, some hb, some hc, some hd =>
                  match jStringBody rest' with
                  | some (body, r) => some (Char.ofNat (((ha * 16 + hb) * 16 + hc) * 16 + hd) :: body, r)
                  | none => none
              | _, _, _, _ => none
          | _ => none
      | _ =>
          let mapped : Option Char :=
            if e = '"' then some '"'
            else if e = '\\' then some '\\'
            else if e = '/' then some '/'
            else if e = 'b' then some '\x08'
            else if e = 'f' then some '\x0c'
            else if e = 'n' then some '\n'
            else if e = 'r' then some '\r'
            else if e = 't' then some '\t'
            else none
          match mapped with
          | some m =>
              match jStringBody rest with
              | some (body, r) => some (m :: body, r)
              | none => none
          | none => none
  | c :: rest =>
      match jStringBody rest with
      | some (body, r) => some (c :: body, r)
      | none => none

/-- Parse a JSON number starting at `cs`; returns the value and the rest. -/
def jNumber (cs : List Char) : Option (PyNum × List Char) :=
  let (sgn, r1) :=
    match cs with
    | '-' :: r => ((-1 : ℚ), r)
    | r => ((1 : ℚ), r)
  let intPart := r1.takeWhile isDigitCh
  let r2 := r1.dropWhile isDigitCh
  if intPart.isEmpty then none
  else
    let (isFl1, fracPart, r3) :=
      match r2 with
      | '.' :: r => (true, r.takeWhile isDigitCh, r.dropWhile isDigitCh)
      | r => (false, [], r)
    if isFl1 && fracPart.isEmpty then none
    else
      let base : ℚ := (digitsVal intPart : ℚ) + (digitsVal fracPart : ℚ) / ((10 : ℚ) ^ fracPart.length)
      match r3 with
      | e :: r4 =>
          if e = 'e' || e = 'E' then
            let (esgn, r5) :=
              match r4 with
              | '-' :: r => (false, r)
              | '+' :: r => (true, r)
              | r => (true, r)
            let eDigits := r5.takeWhile isDigitCh
            let r6 := r5.dropWhile isDigitCh
            if eDigits.isEmpty then none
            else
              let m := digitsVal eDigits
              let v := sgn * base * (if esgn then ((10 : ℚ) ^ m) else ((10 : ℚ) ^ m)⁻¹)
              some (⟨true, v⟩, r6)
          else some (⟨isFl1, sgn * base⟩, r3)
      | [] => some (⟨isFl1, sgn * base⟩, r3)

mutual

/-- Parse one JSON value (with fuel); models `json.loads`'s grammar. -/
def jVal : Nat → List Char → Option (Json × List Char)
  | 0, _ => none
  | fuel + 1, cs =>
      match jSkipWs cs with
      | '{' :: rest =>
          match jSkipWs rest with
          | '}' :: r => some (.obj [], r)
          | r => jMembers fuel r []
      | '[' :: rest =>
          match jSkipWs rest with
          | ']' :: r => some (.arr [], r)
          | r => jElems fuel r []
      | '"' :: rest =>
          match jStringBody rest with
          | some (body, r) => some (.str (chStr body), r)
          | none => none
      | 't' :: 'r' :: 'u' :: 'e' :: r => some (.bool true, r)
      | 'f' :: 'a' :: 'l' :: 's' :: 'e' :: r => some (.bool false, r)
      | 'n' :: 'u' :: 'l' :: 'l' :: r => some (.null, r)
      | r =>
          match jNumber r with
          | some (n, rest) => some (.num n, rest)
          | none => none

/-- Parse the members of a JSON object after the opening brace (fuel). -/
def jMembers : Nat → List Char → List (String × Json) → Option (Json × List Char)
  | 0, _, _ => none
  | fuel + 1, cs, acc =>
      match jSkipWs cs with
      | '"' :: rest =>
          match jStringBody rest with
          | some (key, r1) =>
              match jSkipWs r1 with
              | ':' :: r2 =>
                  match jVal fuel r2 with
                  | some (v, r3) =>
                      let acc' := jSet acc (chStr key) v
                      match jSkipWs r3 with
                      | ',' :: r4 => jMembers fuel r4 acc'
                      | '}' :: r4 => some (.obj acc', r4)
                      | _ => none
                  | none => none
              | _ => none
          | none => none
      | _ => none

/-- Parse the elements of a JSON array after the opening bracket (fuel). -/
def jElems : Nat → List Char → List Json → Option (Json × List Char)
  | 0, _, _ => none
  | fuel + 1, cs, acc =>
      match jVal fuel cs with
      | some (v, r1) =>
          match jSkipWs r1 with
          | ',' :: r2 => jElems fuel r2 (acc ++ [v])
          | ']' :: r2 => some (.arr (acc ++ [v]), r2)
          | _ => none
      | none => none

end

/-- Python `json.loads(s)`: parse one value with nothing but whitespace
left over, raising `JSONDecodeError` otherwise. -/
def jLoads (s : String) : Except PyErr Json :=
  match jVal (s.data.length + 1) s.data with
  | some (v, rest) => if (jSkipWs rest).isEmpty then .ok v else .error .jsonDecodeError
  | none => .error .jsonDecodeError

/-- A 2D extrusion point (`class Point(NamedTuple)`); Python floats are
modelled as exact rationals. -/
structure Point where
  x : ℚ
  y : ℚ
  deriving DecidableEq, Repr

/-- The state of a `HullTracker`: its set of unique points.  The Python
object holds a `set`; it is modelled as a duplicate-free list in insertion
order, which is observationally equivalent because every consumer
(`center`, `exterior`) is order-independent. -/
structure HullTracker where
  points : List Point
  deriving DecidableEq, Repr

/-- A fresh `HullTracker()`. -/
def HullTracker.init : HullTracker := ⟨[]⟩

/-- Set insertion: `self.points.add(point)`. -/
def HullTracker.add_point (h : HullTracker) (p : Point) : HullTracker :=
  if p ∈ h.points then h else ⟨h.points ++ [p]⟩

/-- `HullTracker.center`: arithmetic mean of the points, or `None` when the
set is empty (the method falls through without a `return`). -/
def HullTracker.center (h : HullTracker) : Option (ℚ × ℚ) :=
  if h.points.isEmpty then none
  else
    some ((h.points.map Point.x).sum / (h.points.length : ℚ),
          (h.points.map Point.y).sum / (h.points.length : ℚ))

/-- `boundingbox(pmin, pmax)`: the four corners, in the source's order
(min,min), (min,max), (max,max), (max,min). -/
def boundingbox {α : Type} (pmin pmax : α × α) : List (α × α) :=
  [(pmin.1, pmin.2), (pmin.1, pmax.2), (pmax.1, pmax.2), (pmax.1, pmin.2)]

/-- One iteration of the `exterior` loop: update the running minima and
maxima `(min_x, max_x, min_y, max_y)` with a point. -/
def exteriorStep (a : ℚ × ℚ × ℚ × ℚ) (p : Point) : ℚ × ℚ × ℚ × ℚ :=
  ((if p.x < a.1 then p.x else a.1),
   (if p.x > a.2.1 then p.x else a.2.1),
   (if p.y < a.2.2.1 then p.y else a.2.2.1),
   (if p.y > a.2.2.2 then p.y else a.2.2.2))

/-- `HullTracker.exterior`: starting from a first point, fold the rest
updating running minima and maxima, then return the bounding rectangle;
`None` when the set is empty. -/
def HullTracker.exterior (h : HullTracker) : Option (List (ℚ × ℚ)) :=
  match h.points with
  | [] => none
  | first :: rest =>
      let acc := rest.foldl exteriorStep (first.x, first.x, first.y, first.y)
      some (boundingbox (acc.1, acc.2.2.1) (acc.2.1, acc.2.2.2))

/-- `class KnownObject(NamedTuple)`: sanitized name plus hull. -/
structure KnownObject where
  name : String
  hull : HullTracker
  deriving DecidableEq, Repr

/-- The per-file `known_objects` dict: insertion-ordered map from the
dialect-native id to its `KnownObject`. -/
abbrev Registry := List (String × KnownObject)

/-- Dict lookup `known_objects[id]` (as an `Option`). -/
def regLookup (r : Registry) (id : String) : Option KnownObject :=
  (List.find? (fun e => e.1 == id) r).map (·.2)

/-- Registration `known_objects[id] = KnownObject(name, HullTracker())`,
performed only when the id is absent (`if id not in known_objects`). -/
def regInsertNew (r : Registry) (id name : String) : Registry :=
  if (regLookup r id).isSome then r
  else List.append r [(id, ⟨name, HullTracker.init⟩)]

/-- `current_hull.add_point(p)`: the current hull is aliased inside the
registry, so adding a point updates the registered object in place. -/
def regAddPoint (r : Registry) (id : String) (p : Point) : Registry :=
  List.map (fun e => if e.1 == id then (e.1, ⟨e.2.name, e.2.hull.add_point p⟩) else e) r

/-- Length of the registry (`len(known_objects)`). -/
def regLen (r : Registry) : Nat := List.length r

/-- `_clean_id`: the `re.sub(r"\W+", "_", id)` step, translated as the
regex engine's left-to-right scan: a word character is copied, a non-word
character emits one underscore when it begins a run (`inRun` is false) and
is swallowed when it continues one. -/
def reSubScan : Bool → List Char → List Char
  | _, [] => []
  | inRun, c :: cs =>
      if isWordCh c then c :: reSubScan false cs
      else if inRun then reSubScan true cs
      else '_' :: reSubScan true cs

/-- `_clean_id(id)`: collapse non-word runs to `_`, then `strip("_")`. -/
def clean_id (s : String) : String :=
  pyStripUnderscore (chStr (reSubScan false s.data))

/-- `parse_gcode`: split the stripped line on whitespace into a command and
parameter tokens, and build the parameter dict keyed by the upper-cased
first character of each token (later tokens overwrite earlier ones, as in
the Python dict comprehension). -/
def parse_gcode (line : String) : Option (String × List (Char × String)) :=
  match pySplitWs (pyStrip line) with
  | [] => none
  | command :: params =>
      let dict := params.foldl
        (fun (d : List (Char × String)) (p : String) =>
          match p.data with
          | [] => d
          | c :: rest =>
              let key := c.toUpper
              if (List.find? (fun e => e.1 == key) d).isSome then
                List.map (fun e => if e.1 == key then (e.1, chStr rest) else e) d
              else d ++ [(key, chStr rest)])
        []
      some (command, dict)

/-- Parameter dict lookup (`params["X"]`, `"X" in params`). -/
def gParam (d : List (Char × String)) (k : Char) : Option String :=
  (List.find? (fun e => e.1 == k) d).map (·.2)

/-- The canonical "already annotated" header comment line. -/
def HEADER_MARKER : String := "; Pre-Processed for Cancel-Object support\n"

/-- The idempotency-marker command token. -/
def DEFINE_OBJECT_TOKEN : String := "DEFINE_OBJECT"

/-- `header(object_count)`: the three fragments the header generator
yields. -/
def headerFrags (object_count : Int) : List String :=
  ["\n\n", HEADER_MARKER, "; " ++ intToStr object_count ++ " known objects\n"]

/-- Python `str(x)` on a parsed JSON value, as used by
`",".join(map(str, coords))`.  Strings map to themselves, numbers to their
Python rendering, booleans and null to their Python names; nested
containers (which the slicers' metadata never puts inside coordinate
lists) are given a fixed rendering. -/
def jFString : Json → String
  | .null => "None"
  | .bool b => if b then "True" else "False"
  | .num n => pyStrNum n
  | .str s => s
  | .arr _ => "[...]"
  | .obj _ => "{...}"

/-- `_dump_coords(coords)`: `",".join(map(str, coords))`.  Defined for the
iterables that reach it in the source: a JSON array (SuperSlicer metadata)
or a tuple of floats (hull centers, passed here as a JSON array of float
numbers); iterating a non-iterable raises `TypeError`. -/
def dump_coords (coords : Json) : Except PyErr String :=
  match coords with
  | .arr elems => .ok (String.intercalate "," (elems.map jFString))
  | .str s => .ok (String.intercalate "," (s.data.map (fun c => chStr [c])))
  | _ => .error .typeError

/-- `json.dumps(polygon, separators=(",", ":"))` for a list of coordinate
pairs. -/
def dumpsPolygon (ps : List (PyNum × PyNum)) : String :=
  "[" ++ String.intercalate ","
    (ps.map (fun p => "[" ++ pyStrNum p.1 ++ "," ++ pyStrNum p.2 ++ "]")) ++ "]"

/-- The optional `POLYGON` fragment of `define_object`: emitted when the
polygon is present and truthy (a non-empty list). -/
def polyFragsOf (polygon : Option (List (PyNum × PyNum))) : List String :=
  match polygon with
  | some ps => if ps.isEmpty then [] else [" POLYGON=" ++ dumpsPolygon ps]
  | none => []

/-- `define_object(name, center, polygon)`: the fragments the generator
yields.  `if center:` / `if polygon:` are Python truthiness tests; the
unused `region` parameter (no call site passes it) is omitted. -/
def define_object (name : String) (center : Option Json)
    (polygon : Option (List (PyNum × PyNum))) : Except PyErr (List String) := do
  let centerFrags ←
    match center with
    | some c =>
        if jTruthy c then do
          let s ← dump_coords c
          pure [" CENTER=" ++ s]
        else pure []
    | none => pure ([] : List String)
  pure (["DEFINE_OBJECT NAME=" ++ name] ++ centerFrags ++ polyFragsOf polygon ++ ["\n"])

/-- `object_start_marker(object_name)`. -/
def object_start_marker (object_name : String) : List String :=
  ["START_CURRENT_OBJECT NAME=" ++ object_name ++ "\n"]

/-- `object_end_marker(object_name)`. -/
def object_end_marker (object_name : String) : List String :=
  ["END_CURRENT_OBJECT NAME=" ++ object_name ++ "\n"]

/-- Center of a hull as the JSON-array form `define_object` renders
(a tuple of Python floats). -/
def centerJson : Option (ℚ × ℚ) → Option Json
  | some (x, y) => some (.arr [.num (pyFloat x), .num (pyFloat y)])
  | none => none

/-- Exterior of a hull as the list of float pairs `define_object` dumps. -/
def polygonPairs : Option (List (ℚ × ℚ)) → Option (List (PyNum × PyNum))
  | some ps => some (ps.map (fun p => (pyFloat p.1, pyFloat p.2)))
  | none => none

/-- The shared geometry guard: `line.strip().lower().startswith("g")`. -/
def isGLine (line : String) : Bool := pyStartsWith (pyLower (pyStrip line)) "g"

/-- The shared geometry subroutine of the scan passes: when a hull is
active and the line is a G-command whose parameters contain `E`, `X` and
`Y`, parse the coordinates and add the point to the active hull;
`float()` failures raise `ValueError`. -/
def gAddPoint (known : Registry) (cur : Option String) (line : String) :
    Except PyErr Registry :=
  match cur with
  | some cid =>
      if isGLine line then
        match parse_gcode line with
        | none => .error .valueError
        | some (_, params) =>
            match gParam params 'E', gParam params 'X', gParam params 'Y' with
            | some _, some xs, some ys => do
                let x ← parsePyFloat xs
                let y ← parsePyFloat ys
                .ok (regAddPoint known cid ⟨x, y⟩)
            | _, _, _ => .ok known
      else .ok known
  | none => .ok known

/-- One scan-pass iteration of `preprocess_slicer`: a
`"; printing object <id>"` line registers the id (first occurrence) and
makes its hull current; then the geometry subroutine runs on the line. -/
def slicerScanStep (known : Registry) (cur : Option String) (line : String) :
    Except PyErr (Registry × Option String) := do
  let (known1, cur1) ←
    if pyStartsWith line "; printing object " then do
      let seg ← pyIdx1 (pySplitSub "printing object" line)
      let object_id := pyStrip seg
      pure (regInsertNew known object_id (clean_id object_id), some object_id)
    else pure (known, cur)
  let known2 ← gAddPoint known1 cur1 line
  .ok (known2, cur1)

/-- The scan pass of `preprocess_slicer` over the whole file. -/
def slicerScanGo : Registry → Option String → List String → Except PyErr Registry
  | known, _, [] => .ok known
  | known, cur, l :: ls => do
      let (known', cur') ← slicerScanStep known cur l
      slicerScanGo known' cur' ls

/-- The `DEFINE_OBJECT` block for every registered object, in registry
order (the common `for ... in known_objects: yield from define_object(...)`
loop of the slicer, Cura and IdeaMaker emitters). -/
def regDefines : Registry → Except PyErr (List String)
  | [] => .ok []
  | (_, ko) :: rest => do
      let d ← define_object ko.name (centerJson ko.hull.center) (polygonPairs ko.hull.exterior)
      let r ← regDefines rest
      .ok (d ++ r)

/-- One emission-pass iteration of `preprocess_slicer`: re-emit the line;
after a `"; generated by"` banner inject the header and definitions; on
start/stop lines re-emit the start/end markers (unknown ids raise
`KeyError`). -/
def slicerEmitLine (known : Registry) (line : String) : Except PyErr (List String) := do
  let hdrFrags ←
    if pyStartsWith line "; generated by" then do
      let defs ← regDefines known
      pure (headerFrags (regLen known : Int) ++ defs)
    else pure []
  let startFrags ←
    if pyStartsWith line "; printing object " then do
      let seg ← pyIdx1 (pySplitSub "printing object" line)
      match regLookup known (pyStrip seg) with
      | some ko => pure (object_start_marker ko.name)
      | none => .error .keyError
    else pure []
  let endFrags ←
    if pyStartsWith line "; stop printing object " then do
      let seg ← pyIdx1 (pySplitSub "printing object" line)
      match regLookup known (pyStrip seg) with
      | some ko => pure (object_end_marker ko.name)
      | none => .error .keyError
    else pure []
  .ok ([line] ++ hdrFrags ++ startFrags ++ endFrags)

/-- The emission pass of `preprocess_slicer`. -/
def slicerEmitGo (known : Registry) : List String → Except PyErr (List String)
  | [] => .ok []
  | l :: ls => do
      let f ← slicerEmitLine known l
      let r ← slicerEmitGo known ls
      .ok (f ++ r)

/-- `preprocess_slicer` (PrusaSlicer and Slic3r): scan pass, rewind,
emission pass. -/
def preprocess_slicer (lines : List String) : Except PyErr (List String) := do
  let known ← slicerScanGo [] none lines
  slicerEmitGo known lines

/-- `preprocess_pipe`: the generic passthrough. -/
def preprocess_pipe (lines : List String) : Except PyErr (List String) := .ok lines

/-- Python truthiness of the Cura `current_object` variable (a `str` after
assignment, `None` between objects): `None` and the empty string are
falsy. -/
def curTruthy : Option String → Bool
  | none => false
  | some n => !n.data.isEmpty

/-- One scan-pass iteration of `preprocess_cura`: a `";MESH:<name>"` line
(names other than the `NONMESH` sentinel, which `continue`s) registers the
mesh and makes its hull current; then the geometry subroutine and the
`";TIME_ELAPSED:"` bookmark update run. -/
def curaScanStep (known : Registry) (cur lastTE : Option String) (line : String) :
    Except PyErr (Registry × Option String × Option String) := do
  let meshRes ←
    if pyStartsWith line ";MESH:" then do
      let seg ← pySplitOnce1 ':' line
      let object_name := pyStrip seg
      if object_name == "NONMESH" then pure none
      else pure (some (regInsertNew known object_name (clean_id object_name), some object_name))
    else pure (some (known, cur))
  match meshRes with
  | none => .ok (known, cur, lastTE)
  | some (known1, cur1) => do
      let known2 ← gAddPoint known1 cur1 line
      let lastTE' := if pyStartsWith line ";TIME_ELAPSED:" then some line else lastTE
      .ok (known2, cur1, lastTE')

/-- The scan pass of `preprocess_cura`. -/
def curaScanGo : Registry → Option String → Option String → List String →
    Except PyErr (Registry × Option String)
  | known, _, lastTE, [] => .ok (known, lastTE)
  | known, cur, lastTE, l :: ls => do
      let (known', cur', lastTE') ← curaScanStep known cur lastTE l
      curaScanGo known' cur' lastTE' ls

/-- The first emission loop of `preprocess_cura`: re-emit lines up to and
including the first non-blank, non-comment line; returns the emitted
prefix and the remaining lines. -/
def curaPhaseA : List String → List String × List String
  | [] => ([], [])
  | l :: ls =>
      if !(pyStrip l).data.isEmpty && !pyStartsWith l ";" then ([l], ls)
      else
        let (f, rest) := curaPhaseA ls
        (l :: f, rest)

/-- The `";MESH:"` handler of the second emission loop of
`preprocess_cura`: close the currently open object (only when its name is
truthy — `current_object` is a string there) and, unless the mesh is
`NONMESH` (which `continue`s, reported in the third component), start the
new one. -/
def curaMeshStage (known : Registry) (cur : Option String) (line : String) :
    Except PyErr (List String × Option String × Bool) :=
  if pyStartsWith line ";MESH:" then do
    let (endFrags, curA) :=
      if curTruthy cur then (object_end_marker (cur.getD ""), (none : Option String))
      else ([], cur)
    let seg ← pySplitOnce1 ':' line
    let mesh := pyStrip seg
    if mesh == "NONMESH" then pure (endFrags, curA, true)
    else
      match regLookup known mesh with
      | none => .error .keyError
      | some ko => pure (endFrags ++ object_start_marker ko.name, some ko.name, false)
  else pure (([] : List String), cur, false)

/-- The `";TIME_ELAPSED:"` handler of the second emission loop of
`preprocess_cura`: a line equal to the scan pass's last such line closes
the open object (string truthiness again); skipped after a `continue`. -/
def curaTimeStage (lastTE : Option String) (cur1 : Option String) (line : String)
    (skipRest : Bool) : List String × Option String :=
  if !skipRest && (match lastTE with | some lt => line == lt | none => false)
      && curTruthy cur1 then
    (object_end_marker (cur1.getD ""), (none : Option String))
  else ([], cur1)

/-- One iteration of the second emission loop of `preprocess_cura`:
re-emit the line, then the mesh handler, then the time-elapsed handler. -/
def curaEmitStep (known : Registry) (lastTE : Option String) (cur : Option String)
    (line : String) : Except PyErr (List String × Option String) := do
  let (meshFrags, cur1, skipRest) ← curaMeshStage known cur line
  let (teFrags, cur2) := curaTimeStage lastTE cur1 line skipRest
  .ok ([line] ++ meshFrags ++ teFrags, cur2)

/-- The second emission loop of `preprocess_cura`, with the final
`if current_object:` close after the last line. -/
def curaEmitGo (known : Registry) (lastTE : Option String) :
    Option String → List String → Except PyErr (List String)
  | cur, [] => .ok (if curTruthy cur then object_end_marker (cur.getD "") else [])
  | cur, l :: ls => do
      let (f, cur') ← curaEmitStep known lastTE cur l
      let r ← curaEmitGo known lastTE cur' ls
      .ok (f ++ r)

/-- `preprocess_cura`: scan pass, rewind, passthrough of the leading
block, header and definitions, then the marker-injecting loop. -/
def preprocess_cura (lines : List String) : Except PyErr (List String) := do
  let (known, lastTE) ← curaScanGo [] none none lines
  let (aFrags, rest) := curaPhaseA lines
  let defs ← regDefines known
  let bFrags ← curaEmitGo known lastTE none rest
  .ok (aFrags ++ headerFrags (regLen known : Int) ++ defs ++ bFrags)

/-- Python float division by two (`w / 2` is always a float). -/
def pyHalf (n : PyNum) : PyNum := ⟨true, n.val / 2⟩

/-- Python subtraction: float-typed when either operand is. -/
def pySub (a b : PyNum) : PyNum := ⟨a.isFloat || b.isFloat, a.val - b.val⟩

/-- Python addition: float-typed when either operand is. -/
def pyAdd (a b : PyNum) : PyNum := ⟨a.isFloat || b.isFloat, a.val + b.val⟩

/-- Unpacking `[x, y, *_] = v` for a parsed JSON value whose first two
elements must be numbers usable in arithmetic: too few elements raise
`ValueError`, non-sequences and non-numeric elements raise `TypeError`. -/
def unpack2Num : Json → Except PyErr (PyNum × PyNum)
  | .arr (a :: b :: _) =>
      match a, b with
      | .num x, .num y => .ok (x, y)
      | _, _ => .error .typeError
  | .arr _ => .error .valueError
  | _ => .error .typeError

/-- The SuperSlicer per-file metadata dict: id to the parsed
`"; object:"` JSON object (with the added `clean_id` entry). -/
abbrev SSKnown := List (String × List (String × Json))

/-- Dict lookup into the SuperSlicer metadata map. -/
def ssLookup (known : SSKnown) (id : String) : Option (List (String × Json)) :=
  (List.find? (fun e => e.1 == id) known).map (·.2)

/-- Dict assignment `known_objects[id] = object_data`. -/
def ssSet (known : SSKnown) (id : String) (od : List (String × Json)) : SSKnown :=
  if (List.find? (fun e => e.1 == id) known).isSome then
    List.map (fun e => if e.1 == id then (e.1, od) else e) known
  else List.append known [(id, od)]

/-- The `DEFINE_OBJECT` block of `preprocess_superslicer`: per object,
center from `object_center` when present, polygon from
`boundingbox_center` plus/minus half of `boundingbox_size` when both are
truthy. -/
def ssDefines : List (String × List (String × Json)) → Except PyErr (List String)
  | [] => .ok []
  | (_, od) :: rest => do
      let polygon ←
        match jGet od "boundingbox_center", jGet od "boundingbox_size" with
        | some bc, some bs =>
            if jTruthy bc && jTruthy bs then do
              let (x, y) ← unpack2Num bc
              let (w, h) ← unpack2Num bs
              pure (some (boundingbox
                (pySub x (pyHalf w), pySub y (pyHalf h))
                (pyAdd x (pyHalf w), pyAdd y (pyHalf h))))
            else pure (none : Option (List (PyNum × PyNum)))
        | _, _ => pure (none : Option (List (PyNum × PyNum)))
      let name ←
        match jGet od "clean_id" with
        | some v => pure (jFString v)
        | none => .error .keyError
      let d ← define_object name (jGet od "object_center") polygon
      let r ← ssDefines rest
      .ok (d ++ r)

/-- The second loop of `preprocess_superslicer` (after the `break` on the
`"; plater:"` line): re-emit lines, adding start/end markers keyed by the
object id taken from the `"printing object"` split. -/
def ssPhase2 (known : SSKnown) : List String → Except PyErr (List String)
  | [] => .ok []
  | l :: ls => do
      let startFrags ←
        if pyStartsWith l "; printing object " then do
          let seg ← pyIdx1 (pySplitSub "printing object" l)
          match ssLookup known (pyStrip seg) with
          | none => .error .keyError
          | some od =>
              match jGet od "clean_id" with
              | some v => pure (object_start_marker (jFString v))
              | none => .error .keyError
        else pure []
      let endFrags ←
        if pyStartsWith l "; stop printing object " then do
          let seg ← pyIdx1 (pySplitSub "printing object" l)
          match ssLookup known (pyStrip seg) with
          | none => .error .keyError
          | some od =>
              match jGet od "clean_id" with
              | some v => pure (object_end_marker (jFString v))
              | none => .error .keyError
        else pure []
      let r ← ssPhase2 known ls
      .ok ([l] ++ startFrags ++ endFrags ++ r)

/-- The first loop of `preprocess_superslicer`: collect `"; object:"`
JSON metadata (adding the sanitized `clean_id`); the `"; plater:"`
sentinel emits the header and all definitions and breaks into the second
loop. -/
def ssPhase1 (known : SSKnown) : List String → Except PyErr (List String)
  | [] => .ok []
  | l :: ls => do
      let known' ←
        if pyStartsWith l "; object:" then do
          let seg ← pySplitOnce1 ':' l
          let od ← jLoads (pyStrip seg)
          match od with
          | .obj fields =>
              match jGet fields "id" with
              | some (.str idStr) =>
                  pure (ssSet known idStr (jSet fields "clean_id" (.str (clean_id idStr))))
              | some _ => .error .typeError
              | none => .error .keyError
          | _ => .error .typeError
        else pure known
      if pyStartsWith l "; plater:" then do
        let defs ← ssDefines known'
        let rest ← ssPhase2 known' ls
        .ok ([l] ++ headerFrags (List.length known' : Int) ++ defs ++ rest)
      else do
        let rest ← ssPhase1 known' ls
        .ok ([l] ++ rest)

/-- `preprocess_superslicer`: a single forward pass (no geometry scan). -/
def preprocess_superslicer (lines : List String) : Except PyErr (List String) :=
  ssPhase1 [] lines

/-- The scan pass of `preprocess_ideamaker`: a `";PRINTING:<name>"` line
consumes the immediately following line with `next(infile)`, which must be
`";PRINTING_ID:<id>"` (asserted); id `"-1"` is the no-object sentinel and
`continue`s; otherwise the id is registered under the sanitized name and
its hull made current.  `next()` at end of stream raises (PEP 479 turns
the `StopIteration` into a `RuntimeError`).  All other lines get the
geometry subroutine. -/
def ideaScanGo : Registry → Option String → List String → Except PyErr Registry
  | known, _, [] => .ok known
  | known, cur, l :: ls =>
      if pyStartsWith l ";PRINTING:" then do
        let nameSeg ← pyIdx1 (pySplitChar ':' l)
        let name := pyStrip nameSeg
        match ls with
        | [] => .error .runtimeError
        | idLine :: ls' =>
            if !pyStartsWith idLine ";PRINTING_ID:" then .error .assertionError
            else do
              let idSeg ← pyIdx1 (pySplitChar ':' idLine)
              let id := pyStrip idSeg
              if id == "-1" then ideaScanGo known cur ls'
              else do
                let known1 := regInsertNew known id (clean_id name)
                let cur1 : Option String := some id
                let known2 ← gAddPoint known1 cur1 l
                ideaScanGo known2 cur1 ls'
      else do
        let known' ← gAddPoint known cur l
        ideaScanGo known' cur ls

/-- The `";TOTAL_NUM:<n>"` handler of the IdeaMaker emission pass:
check `n` against the registry size (`assert`, fatal on mismatch) and
inject the header and definitions. -/
def ideaTotalStage (known : Registry) (line : String) : Except PyErr (List String) :=
  if pyStartsWith line ";TOTAL_NUM:" then do
    let seg ← pyIdx1 (pySplitChar ':' line)
    let total_num ← parsePyInt (pyStrip seg)
    if total_num = (regLen known : Int) then do
      let defs ← regDefines known
      pure (headerFrags total_num ++ defs)
    else .error .assertionError
  else pure []

/-- The `if current_object:` close of the IdeaMaker emission pass: the
end marker for the open object, nothing when none is open (a
`KnownObject` named tuple is always truthy). -/
def endFragsOf (cur : Option KnownObject) : List String :=
  match cur with
  | some ko => object_end_marker ko.name
  | none => []

/-- The `";PRINTING_ID:"` handler of the IdeaMaker emission pass: close
any open object; unless the id is the `"-1"` sentinel (which `continue`s,
reported in the third component), start the new one (unknown ids raise
`KeyError`). -/
def ideaPrintingStage (known : Registry) (cur : Option KnownObject) (line : String) :
    Except PyErr (List String × Option KnownObject × Bool) :=
  if pyStartsWith line ";PRINTING_ID:" then do
    let seg ← pyIdx1 (pySplitChar ':' line)
    let printing_id := pyStrip seg
    if printing_id == "-1" then pure (endFragsOf cur, (none : Option KnownObject), true)
    else
      match regLookup known printing_id with
      | none => .error .keyError
      | some ko => pure (endFragsOf cur ++ object_start_marker ko.name, some ko, false)
  else pure (([] : List String), cur, false)

/-- The `";REMAINING_TIME: 0"` handler of the IdeaMaker emission pass:
the literal sentinel line closes the open object; skipped after a
`continue`. -/
def ideaRemainingStage (cur1 : Option KnownObject) (line : String) (skipRest : Bool) :
    List String × Option KnownObject :=
  if !skipRest && line == ";REMAINING_TIME: 0\n" then
    match cur1 with
    | some ko => (endFragsOf (some ko), (none : Option KnownObject))
    | none => ([], cur1)
  else ([], cur1)

/-- One emission-pass iteration of `preprocess_ideamaker`: re-emit the
line, then the three handlers in the source's order. -/
def ideaEmitStep (known : Registry) (cur : Option KnownObject) (line : String) :
    Except PyErr (List String × Option KnownObject) := do
  let totalFrags ← ideaTotalStage known line
  let (midFrags, cur1, skipRest) ← ideaPrintingStage known cur line
  let (remFrags, cur2) := ideaRemainingStage cur1 line skipRest
  .ok ([line] ++ totalFrags ++ midFrags ++ remFrags, cur2)

/-- The emission pass of `preprocess_ideamaker`, with the final close of a
still-open object after the last line. -/
def ideaEmitGo (known : Registry) : Option KnownObject → List String → Except PyErr (List String)
  | cur, [] => .ok (match cur with | some ko => object_end_marker ko.name | none => [])
  | cur, l :: ls => do
      let (f, cur') ← ideaEmitStep known cur l
      let r ← ideaEmitGo known cur' ls
      .ok (f ++ r)

/-- `preprocess_ideamaker`: scan pass, rewind, emission pass. -/
def preprocess_ideamaker (lines : List String) : Except PyErr (List String) := do
  let known ← ideaScanGo [] none lines
  ideaEmitGo known none lines

/-- The type of a dialect parser over the rewound line source. -/
def GParser := List String → Except PyErr (List String)

/-- The `SLICERS` table: name, detection marker, parser — in the source's
insertion order, which is also the detection priority order. -/
def SLICERS : List (String × String × GParser) :=
  [("superslicer", "; generated by SuperSlicer", preprocess_superslicer),
   ("prusaslicer", "; generated by PrusaSlicer", preprocess_slicer),
   ("slic3r", "; generated by Slic3r", preprocess_slicer),
   ("cura", ";Generated with Cura_SteamEngine", preprocess_cura),
   ("ideamaker", ";Sliced by ideaMaker", preprocess_ideamaker)]

/-- `identify_slicer_marker(line)`: the first slicer whose marker the
stripped line starts with, if any. -/
def identify_slicer_marker (line : String) : Option GParser :=
  (List.find? (fun e => pyStartsWith (pyStrip line) e.2.1) SLICERS).map (·.2.2)

/-- The detection loop of `preprocessor`: skip blank lines; a non-comment
line before any match is fatal (`return` with no processor, i.e. no
success); a matching comment line selects the parser; reaching the end of
the file with no processor leads to calling `None`, a `TypeError`. -/
def detectLoop : List String → Except PyErr GParser
  | [] => .error .processorNone
  | l :: ls =>
      if (pyStrip l).data.isEmpty then detectLoop ls
      else if !pyStartsWith l ";" then .error .noSlicerFound
      else
        match identify_slicer_marker l with
        | some p => .ok p
        | none => detectLoop ls

/-- `preprocessor(infile, outfile)`: the idempotency guard copies the
input through unchanged when any line starts with `DEFINE_OBJECT`;
otherwise the detection loop picks a parser, the file is rewound and the
parser's fragments are written out. -/
def preprocessor (content : String) : Except PyErr String :=
  let lines := pyLines content
  if lines.any (fun l => pyStartsWith l DEFINE_OBJECT_TOKEN) then .ok content
  else
    match detectLoop lines with
    | .error e => .error e
    | .ok proc =>
        match proc lines with
        | .error e => .error e
        | .ok frags => .ok (pyJoin frags)

/-- The file driver `process_file_for_cancellation`, reduced to its commit
decision: the temp file replaces the output path only when `preprocessor`
returned truthy; on a falsy result or an escaping exception no output file
is committed. -/
def process_file_for_cancellation (content : String) : Option String :=
  match preprocessor content with
  | .ok out => some out
  | .error _ => none

/-- Spec-side (C5): the leading blank/comment block of a file — the
maximal prefix of lines that are blank (after stripping) or start with a
semicolon. -/
def leadingBlock : List String → List String
  | [] => []
  | l :: ls =>
      if (pyStrip l).data.isEmpty || pyStartsWith l ";" then l :: leadingBlock ls
      else []

/-- The five fixed dialect marker strings, in detection priority order. -/
def dialectMarkers : List String := List.map (fun e => e.2.1) SLICERS

/-- Spec-side (C3): the id of a `"; printing object <id>"` line, when the
line is one. -/
def printingIdOf (line : String) : Option String :=
  if pyStartsWith line "; printing object " then
    match pySplitSub "printing object" line with
    | _ :: seg :: _ => some (pyStrip seg)
    | _ => none
  else none

/-- Spec-side (C3): the id of a `"; stop printing object <id>"` line, when
the line is one. -/
def stopIdOf (line : String) : Option String :=
  if pyStartsWith line "; stop printing object " then
    match pySplitSub "printing object" line with
    | _ :: seg :: _ => some (pyStrip seg)
    | _ => none
  else none

/-- Spec-side (C3): scans for the claim's print windows of an id — pairs
of the index of a `"; printing object <id>"` line and the index of the
matching `"; stop printing object <id>"` line. -/
def pyWindowsGo (id : String) : Nat → Option Nat → List String → List (Nat × Nat)
  | _, _, [] => []
  | i, opened, l :: ls =>
      if printingIdOf l == some id then pyWindowsGo id (i + 1) (some i) ls
      else if stopIdOf l == some id then
        match opened with
        | some j => (j, i) :: pyWindowsGo id (i + 1) none ls
        | none => pyWindowsGo id (i + 1) none ls
      else pyWindowsGo id (i + 1) opened ls

/-- Spec-side (C3): all print windows of `id` in the file. -/
def pyWindows (lines : List String) (id : String) : List (Nat × Nat) :=
  pyWindowsGo id 0 none lines

/-- Spec-side (C3 amended): the id of the most recent
`"; printing object"` line in the given prefix (starting from `cur`). -/
def lastPrintOwner (cur : Option String) (lines : List String) : Option String :=
  lines.foldl (fun acc l => match printingIdOf l with | some id => some id | none => acc) cur

/-- Spec-side (C3 amended): the coordinate pair a qualifying G-command
line contributes — the line is a G-command, its parameters contain `E`,
`X` and `Y`, and the coordinates parse. -/
def gPointOf (line : String) : Option Point :=
  if isGLine line then
    match parse_gcode line with
    | none => none
    | some (_, params) =>
        match gParam params 'E', gParam params 'X', gParam params 'Y' with
        | some _, some xs, some ys =>
            match parsePyFloat xs, parsePyFloat ys with
            | .ok x, .ok y => some ⟨x, y⟩
            | _, _ => none
        | _, _, _ => none
  else none

/-- The points recorded for `id` in a registry (empty when unregistered). -/
def regPoints (r : Registry) (id : String) : List Point :=
  match regLookup r id with
  | some ko => ko.hull.points
  | none => []

/-- Spec-side (C10): a fragment that is an injected start marker. -/
def isStartFrag (f : String) : Bool := pyStartsWith f "START_CURRENT_OBJECT"

/-- Spec-side (C10): a fragment that is an injected end marker. -/
def isEndFrag (f : String) : Bool := pyStartsWith f "END_CURRENT_OBJECT"

/-- Spec-side (C10): the object name carried by a start-marker fragment
(the characters after `"START_CURRENT_OBJECT NAME="` and before the
newline). -/
def startFragName (f : String) : String := chStr ((f.data.drop 26).dropLast)

/-- Spec-side (C10): the automaton checking that start/end markers
alternate, that each end marker closes the object the preceding start
marker opened, and that no object is left open at the end; `op` holds the
name of the currently open object. -/
def markersBalancedAux : Option String → List String → Bool
  | op, [] => op.isNone
  | op, f :: fs =>
      if isStartFrag f then
        match op with
        | some _ => false
        | none => markersBalancedAux (some (startFragName f)) fs
      else if isEndFrag f then
        match op with
        | some n =>
            if f == "END_CURRENT_OBJECT NAME=" ++ n ++ "\n" then markersBalancedAux none fs
            else false
        | none => false
      else markersBalancedAux op fs

/-- Spec-side (C10): balanced markers over a fragment sequence. -/
def markersBalanced (frags : List String) : Bool := markersBalancedAux none frags

/-- Spec-side (C10 amended): whether every object the Cura scan pass
registers has a non-empty sanitized name (trivially true when the scan
fails). -/
def curaNamesNonEmpty (lines : List String) : Bool :=
  match curaScanGo [] none none lines with
  | .ok (known, _) => known.all (fun e => !e.2.name.data.isEmpty)
  | .error _ => true

/-- Spec-side (C8): `re.sub(r"\W+", "_", ·)` described the claim's way —
each maximal run of non-word characters is replaced by one underscore
(the recursion consumes a whole run at a time). -/
def subMaximalRuns : List Char → List Char
  | [] => []
  | c :: cs =>
      if isWordCh c then c :: subMaximalRuns cs
      else '_' :: subMaximalRuns (cs.dropWhile (fun d => !isWordCh d))
termination_by cs => cs.length
decreasing_by
  · simp only [List.length_cons]; omega
  · have : (cs.dropWhile (fun d => !isWordCh d)).length ≤ cs.length :=
      (List.dropWhile_sublist (fun d => !isWordCh d)).length_le
    simp only [List.length_cons]; omega

/-- Spec-side (C8): the claim's description of sanitization — collapse
each maximal non-word run to a single underscore, then strip leading and
trailing underscores. -/
def cleanIdSpec (s : String) : String :=
  pyStripUnderscore (chStr (subMaximalRuns s.data))

/-- The SuperSlicer test scenario of the spec (claim C4). -/
def ssScenarioLines : List String :=
  pyLines "; object: \x7b\"id\":\"a\",\"name\":\"a\",\"object_center\":[1,1,0]\x7d\n; plater:\n; printing object a\nG1 X0 Y0\n; stop printing object a\n"

/-- The fragments `preprocess_superslicer` yields on the scenario. -/
def ssScenarioOut : List String :=
  ["; object: \x7b\"id\":\"a\",\"name\":\"a\",\"object_center\":[1,1,0]\x7d\n", "; plater:\n",
   "\n\n", "; Pre-Processed for Cancel-Object support\n", "; 1 known objects\n",
   "DEFINE_OBJECT NAME=a", " CENTER=1,1,0", "\n",
   "; printing object a\n", "START_CURRENT_OBJECT NAME=a\n", "G1 X0 Y0\n",
   "; stop printing object a\n", "END_CURRENT_OBJECT NAME=a\n"]

/-- A PrusaSlicer file whose only geometry line lies after the stop
marker (claim C3). -/
def slicerCexLines : List String :=
  pyLines "; printing object a\n; stop printing object a\nG1 X1 Y2 E5\n"

/-- A PrusaSlicer file with no objects (claim C2): its annotated output
carries the header but no `DEFINE_OBJECT` line. -/
def prusaEmptyIn : String := "; generated by PrusaSlicer\n"

/-- First-run output for `prusaEmptyIn`. -/
def prusaEmptyOut : String :=
  "; generated by PrusaSlicer\n\n\n; Pre-Processed for Cancel-Object support\n; 0 known objects\n"

/-- Second-run output for `prusaEmptyIn`: the header is injected again. -/
def prusaEmptyOut2 : String :=
  "; generated by PrusaSlicer\n\n\n; Pre-Processed for Cancel-Object support\n; 0 known objects\n\n\n; Pre-Processed for Cancel-Object support\n; 0 known objects\n"

/-- A PrusaSlicer file with one object (claim C2's witness). -/
def prusaObjIn : String :=
  "; generated by PrusaSlicer\n; printing object a\n; stop printing object a\n"

/-- Its annotated output, which contains a `DEFINE_OBJECT` line. -/
def prusaObjOut : String :=
  "; generated by PrusaSlicer\n\n\n; Pre-Processed for Cancel-Object support\n; 1 known objects\nDEFINE_OBJECT NAME=a\n; printing object a\nSTART_CURRENT_OBJECT NAME=a\n; stop printing object a\nEND_CURRENT_OBJECT NAME=a\n"

/-- A Cura file whose mesh name sanitizes to the empty string
(claim C10): the empty name is falsy, so its object is never closed. -/
def curaCexLines : List String := pyLines ";MESH:!\nG1 X0 Y0 E0\n;MESH:!\n"

/-- The fragments `preprocess_cura` yields on `curaCexLines`. -/
def curaCexOut : List String :=
  [";MESH:!\n", "G1 X0 Y0 E0\n", "\n\n", "; Pre-Processed for Cancel-Object support\n",
   "; 1 known objects\n", "DEFINE_OBJECT NAME=", " CENTER=0.0,0.0",
   " POLYGON=[[0.0,0.0],[0.0,0.0],[0.0,0.0],[0.0,0.0]]", "\n",
   ";MESH:!\n", "START_CURRENT_OBJECT NAME=\n"]

/-- A well-behaved Cura file (claim C10's witness). -/
def curaWitLines : List String := pyLines ";MESH:a\nG1 X1 Y1 E1\n;MESH:a\nG1 X2 Y2 E1\n"

/-- A well-behaved IdeaMaker file (claim C10's witness). -/
def ideaWitLines : List String :=
  pyLines ";TOTAL_NUM: 1\n;PRINTING: a\n;PRINTING_ID: 0\n;REMAINING_TIME: 0\n"

/-- A one-object registry (claim C6's witness). -/
def ideaKnown1 : Registry := [("0", ⟨"a", ⟨[]⟩⟩)]

/-- Spec-side (C7): `r = (min_x, max_x, min_y, max_y)` holds attained
bounds for the x- and y-coordinates of the points of `S`. -/
def IsBounds (S : List Point) (r : ℚ × ℚ × ℚ × ℚ) : Prop :=
  (r.1 ∈ S.map Point.x ∧ ∀ p ∈ S, r.1 ≤ p.x) ∧
  (r.2.1 ∈ S.map Point.x ∧ ∀ p ∈ S, p.x ≤ r.2.1) ∧
  (r.2.2.1 ∈ S.map Point.y ∧ ∀ p ∈ S, r.2.2.1 ≤ p.y) ∧
  (r.2.2.2 ∈ S.map Point.y ∧ ∀ p ∈ S, p.y ≤ r.2.2.2)

/-- Helper for the idempotency-guard theorems: when some line of the file
starts with `DEFINE_OBJECT`, `preprocessor` copies the input through. -/
theorem guard_passthrough (s l : String) (h1 : l ∈ pyLines s)
    (h2 : pyStartsWith l DEFINE_OBJECT_TOKEN = true) : preprocessor s = .ok s := by
  have h : (pyLines s).any (fun l => pyStartsWith l DEFINE_OBJECT_TOKEN) = true :=
    List.any_eq_true.mpr ⟨l, h1, h2⟩
  simp [preprocessor, h]

/-- C1: for every input file containing a line that begins with the
literal token `DEFINE_OBJECT`, the preprocessor copies the input to the
output unchanged (byte-identical) and returns success.  (In
`preprocessor` this `if` branch returns before the detection loop and the
dialect-parser dispatch are ever reached.) -/
theorem C1_already_annotated_passthrough (s l : String) (h1 : l ∈ pyLines s)
    (h2 : pyStartsWith l DEFINE_OBJECT_TOKEN = true) : preprocessor s = .ok s :=
  guard_passthrough s l h1 h2

/-- Witness for C1 at the one-line file `DEFINE_OBJECT`. -/
theorem C1_already_annotated_passthrough_witness :
    ("DEFINE_OBJECT\n" ∈ pyLines "DEFINE_OBJECT\n") ∧
      preprocessor "DEFINE_OBJECT\n" = .ok "DEFINE_OBJECT\n" :=
  ⟨by decide, C1_already_annotated_passthrough "DEFINE_OBJECT\n" "DEFINE_OBJECT\n"
    (by decide) (by decide)⟩

/-- Counterexample to C2 as stated: on the object-free PrusaSlicer file
`prusaEmptyIn` the preprocessor succeeds with output `prusaEmptyOut`,
whose lines carry no `DEFINE_OBJECT` token; reprocessing that output
succeeds but injects the header a second time, so the result is not
byte-identical. -/
theorem C2_idempotence_counterexample :
    preprocessor prusaEmptyIn = .ok prusaEmptyOut ∧
      preprocessor prusaEmptyOut = .ok prusaEmptyOut2 ∧
      prusaEmptyOut2 ≠ prusaEmptyOut := by
  refine ⟨by decide, by decide, by decide⟩

/-- C2 as amended: reprocessing is a byte-identical success whenever the
first run's output contains a line beginning with `DEFINE_OBJECT` (which
is the guard the code actually checks; an annotated file with zero
defined objects lacks such a line and is re-annotated instead). -/
theorem C2_idempotence_amended (s O l : String)
    (h0 : preprocessor s = .ok O) (h1 : l ∈ pyLines O)
    (h2 : pyStartsWith l DEFINE_OBJECT_TOKEN = true) :
    preprocessor O = .ok O :=
  guard_passthrough O l h1 h2

/-- Witness for the amended C2 at a one-object PrusaSlicer file. -/
theorem C2_idempotence_amended_witness :
    preprocessor prusaObjIn = .ok prusaObjOut ∧
      preprocessor prusaObjOut = .ok prusaObjOut :=
  ⟨by decide, C2_idempotence_amended prusaObjIn prusaObjOut "DEFINE_OBJECT NAME=a\n"
    (by decide) (by decide) (by decide)⟩

/-- C9: an empty `HullTracker` returns `None` from both `center()` and
`exterior()` (no exception), and `define_object` rendered with those
values yields exactly the `NAME`-only line — no `CENTER` and no `POLYGON`
fragment. -/
theorem C9_empty_hull_none (t : HullTracker) (nm : String) (hp : t.points = []) :
    t.center = none ∧ t.exterior = none ∧
      define_object nm (centerJson t.center) (polygonPairs t.exterior) =
        .ok ["DEFINE_OBJECT NAME=" ++ nm, "\n"] := by
  have hc : t.center = none := by simp [HullTracker.center, hp]
  have he : t.exterior = none := by
    unfold HullTracker.exterior
    rw [hp]
  refine ⟨hc, he, ?_⟩
  rw [hc, he]
  rfl

/-- Witness for C9 at a fresh tracker and the name `a`. -/
theorem C9_empty_hull_none_witness :
    HullTracker.init.points = [] ∧
      (HullTracker.init.center = none ∧ HullTracker.init.exterior = none ∧
        define_object "a" (centerJson HullTracker.init.center)
          (polygonPairs HullTracker.init.exterior) =
          .ok ["DEFINE_OBJECT NAME=" ++ "a", "\n"]) :=
  ⟨rfl, C9_empty_hull_none HullTracker.init "a" rfl⟩

/-- Counterexample to C4 as stated: on the spec's SuperSlicer scenario the
parser succeeds, but no output line is `DEFINE_OBJECT NAME=a CENTER=1,1`
— `object_center` is dumped whole, giving `CENTER=1,1,0`. -/
theorem C4_superslicer_scenario_counterexample :
    preprocess_superslicer ssScenarioLines = .ok ssScenarioOut ∧
      ((pyLines (pyJoin ssScenarioOut)).all
        (fun l => !(pyStrip l == "DEFINE_OBJECT NAME=a CENTER=1,1"))) = true :=
  ⟨by decide, by decide⟩

/-- C4 as amended: the scenario's output contains the line
`DEFINE_OBJECT NAME=a CENTER=1,1,0` (the full three-component
`object_center`), then `START_CURRENT_OBJECT NAME=a`, then
`END_CURRENT_OBJECT NAME=a`, in that order. -/
theorem C4_superslicer_scenario_amended :
    preprocess_superslicer ssScenarioLines = .ok ssScenarioOut ∧
      List.Sublist
        ["DEFINE_OBJECT NAME=a CENTER=1,1,0\n", "START_CURRENT_OBJECT NAME=a\n",
         "END_CURRENT_OBJECT NAME=a\n"]
        (pyLines (pyJoin ssScenarioOut)) :=
  ⟨by decide, by decide⟩

/-- Two incomparable prefixes cannot both start the same string. -/
theorem startsWith_incomp {s : String} (a b : String)
    (ha : pyStartsWith s a = true)
    (hab : pyStartsWith a b = false) (hba : pyStartsWith b a = false) :
    pyStartsWith s b = false := by
  unfold pyStartsWith at *
  by_contra hb
  rw [Bool.not_eq_false] at hb
  rcases List.prefix_or_prefix_of_prefix
      (List.isPrefixOf_iff_prefix.mp ha) (List.isPrefixOf_iff_prefix.mp hb) with hc | hc
  · rw [List.isPrefixOf_iff_prefix.mpr hc] at hba; exact Bool.true_eq_false.mp hba
  · rw [List.isPrefixOf_iff_prefix.mpr hc] at hab; exact Bool.true_eq_false.mp hab

/-- A string starting with one prefix differs from a literal not starting
with it. -/
theorem ne_of_startsWith {s t p : String} (hs : pyStartsWith s p = true)
    (ht : pyStartsWith t p = false) : (s == t) = false := by
  cases h : s == t
  · rfl
  · rw [beq_iff_eq] at h
    subst h
    rw [hs] at ht
    exact ht

/-- Monad-law helper: binding a success applies the continuation. -/
theorem ebind_ok {ε α β : Type} (a : α) (f : α → Except ε β) :
    (do let x ← (Except.ok a : Except ε α); f x) = f a := rfl

/-- Monad-law helper: binding an error propagates it. -/
theorem ebind_error {ε α β : Type} (e : ε) (f : α → Except ε β) :
    (do let x ← (Except.error e : Except ε α); f x) = Except.error e := rfl

/-- An object definition rendered from a hull never fails: the center is
either absent or a two-element array of numbers. -/
theorem define_object_hull_isOk (nm : String) (c : Option (ℚ × ℚ))
    (p : Option (List (ℚ × ℚ))) :
    ∃ out, define_object nm (centerJson c) (polygonPairs p) = .ok out := by
  cases c with
  | none => exact ⟨_, rfl⟩
  | some xy => exact ⟨_, rfl⟩

/-- The definitions block for a registry never fails. -/
theorem regDefines_isOk (r : Registry) : ∃ defs, regDefines r = .ok defs := by
  induction r with
  | nil => exact ⟨[], rfl⟩
  | cons e rest ih =>
      obtain ⟨ds, hds⟩ := ih
      obtain ⟨d, hd⟩ := define_object_hull_isOk e.2.name e.2.hull.center e.2.hull.exterior
      refine ⟨d ++ ds, ?_⟩
      show (do
        let d ← define_object e.2.name (centerJson e.2.hull.center) (polygonPairs e.2.hull.exterior)
        let r ← regDefines rest
        Except.ok (d ++ r)) = Except.ok (d ++ ds)
      rw [hd, hds, ebind_ok, ebind_ok]

/-- C6: in the IdeaMaker emission pass, a `";TOTAL_NUM:<n>"` line whose
count parses to `n` injects, when `n` equals the registry size, the
header followed by one object definition per registered object
immediately after the line (leaving the open-object state unchanged), and
fails fatally with the assertion error when `n` differs. -/
theorem C6_ideamaker_total_num (known : Registry) (cur : Option KnownObject)
    (line rest : String) (n : Int)
    (h1 : pyStartsWith line ";TOTAL_NUM:" = true)
    (h2 : pyIdx1 (pySplitChar ':' line) = .ok rest)
    (h3 : parsePyInt (pyStrip rest) = .ok n) :
    (n = (regLen known : Int) →
      ∃ defs, regDefines known = .ok defs ∧
        ideaEmitStep known cur line = .ok ([line] ++ headerFrags n ++ defs, cur)) ∧
    (n ≠ (regLen known : Int) →
      ideaEmitStep known cur line = .error .assertionError) := by
  have hP : pyStartsWith line ";PRINTING_ID:" = false :=
    startsWith_incomp ";TOTAL_NUM:" ";PRINTING_ID:" h1 (by decide) (by decide)
  have hR : (line == ";REMAINING_TIME: 0\n") = false :=
    ne_of_startsWith h1 (by decide)
  constructor
  · intro he
    obtain ⟨ds, hds⟩ := regDefines_isOk known
    refine ⟨ds, hds, ?_⟩
    simp [ideaEmitStep, ideaTotalStage, ideaPrintingStage, ideaRemainingStage,
      h1, hP, hR, h2, h3, hds, he, ebind_ok]
  · intro he
    simp [ideaEmitStep, ideaTotalStage, ideaPrintingStage, ideaRemainingStage,
      h1, hP, hR, h2, h3, he, ebind_ok, ebind_error]

/-- Witness for C6 at a one-object registry and the line
`;TOTAL_NUM: 1`. -/
theorem C6_ideamaker_total_num_witness :
    (1 : Int) = (regLen ideaKnown1 : Int) ∧
      ideaEmitStep ideaKnown1 none ";TOTAL_NUM: 1\n" =
        .ok ([";TOTAL_NUM: 1\n"] ++ headerFrags 1 ++ ["DEFINE_OBJECT NAME=a", "\n"], none) := by
  obtain ⟨defs, hdefs, hstep⟩ :=
    (C6_ideamaker_total_num ideaKnown1 none ";TOTAL_NUM: 1\n" " 1\n" 1
      (by decide) (by decide) (by decide)).1 (by decide)
  have hd2 : regDefines ideaKnown1 = .ok ["DEFINE_OBJECT NAME=a", "\n"] := by decide
  have hdd := Except.ok.inj (hdefs.symm.trans hd2)
  subst hdd
  exact ⟨by decide, hstep⟩

/-- One `exteriorStep` preserves attained bounds, extending them to the
new point. -/
theorem exteriorStep_bounds {S : List Point} {r : ℚ × ℚ × ℚ × ℚ} (p : Point)
    (h : IsBounds S r) : IsBounds (S ++ [p]) (exteriorStep r p) := by
  obtain ⟨⟨h1m, h1b⟩, ⟨h2m, h2b⟩, ⟨h3m, h3b⟩, ⟨h4m, h4b⟩⟩ := h
  refine ⟨⟨?_, ?_⟩, ⟨?_, ?_⟩, ⟨?_, ?_⟩, ⟨?_, ?_⟩⟩
  · by_cases hc : p.x < r.1 <;> simp [exteriorStep, hc, h1m]
  · intro q hq
    rcases List.mem_append.mp hq with hq | hq
    · by_cases hc : p.x < r.1 <;> simp [exteriorStep, hc] <;>
        [exact le_trans (le_of_lt hc) (h1b q hq); exact h1b q hq]
    · simp at hq
      subst hq
      by_cases hc : q.x < r.1 <;> simp [exteriorStep, hc]
      exact le_of_not_lt hc
  · by_cases hc : p.x > r.2.1 <;> simp [exteriorStep, hc, h2m]
  · intro q hq
    rcases List.mem_append.mp hq with hq | hq
    · by_cases hc : p.x > r.2.1 <;> simp [exteriorStep, hc] <;>
        [exact le_trans (h2b q hq) (le_of_lt hc); exact h2b q hq]
    · simp at hq
      subst hq
      by_cases hc : q.x > r.2.1 <;> simp [exteriorStep, hc]
      exact le_of_not_lt hc
  · by_cases hc : p.y < r.2.2.1 <;> simp [exteriorStep, hc, h3m]
  · intro q hq
    rcases List.mem_append.mp hq with hq | hq
    · by_cases hc : p.y < r.2.2.1 <;> simp [exteriorStep, hc] <;>
        [exact le_trans (le_of_lt hc) (h3b q hq); exact h3b q hq]
    · simp at hq
      subst hq
      by_cases hc : q.y < r.2.2.1 <;> simp [exteriorStep, hc]
      exact le_of_not_lt hc
  · by_cases hc : p.y > r.2.2.2 <;> simp [exteriorStep, hc, h4m]
  · intro q hq
    rcases List.mem_append.mp hq with hq | hq
    · by_cases hc : p.y > r.2.2.2 <;> simp [exteriorStep, hc] <;>
        [exact le_trans (h4b q hq) (le_of_lt hc); exact h4b q hq]
    · simp at hq
      subst hq
      by_cases hc : q.y > r.2.2.2 <;> simp [exteriorStep, hc]
      exact le_of_not_lt hc

/-- The `exterior` fold preserves attained bounds over all points seen. -/
theorem exterior_fold_bounds (rest : List Point) :
    ∀ (S : List Point) (r : ℚ × ℚ × ℚ × ℚ), IsBounds S r →
      IsBounds (S ++ rest) (rest.foldl exteriorStep r) := by
  induction rest with
  | nil => intro S r h; simpa using h
  | cons p ps ih =>
      intro S r h
      have h2 := ih (S ++ [p]) (exteriorStep r p) (exteriorStep_bounds p h)
      simpa [List.append_assoc] using h2

/-- C7: for every non-empty point set, `exterior()` is `boundingbox`
applied to the attained minima and maxima — i.e. exactly the four corners
(min_x,min_y), (min_x,max_y), (max_x,max_y), (max_x,min_y) in that order —
and on `{(0,0),(2,0),(0,2)}` it returns `[(0,0),(0,2),(2,2),(2,0)]`. -/
theorem C7_exterior_bounding_rectangle :
    (∀ (t : HullTracker), t.points ≠ [] →
      ∃ mnx mxx mny mxy,
        t.exterior = some (boundingbox (mnx, mny) (mxx, mxy)) ∧
        IsBounds t.points (mnx, mxx, mny, mxy)) ∧
    HullTracker.exterior ⟨[⟨0, 0⟩, ⟨2, 0⟩, ⟨0, 2⟩]⟩ =
      some [(0, 0), (0, 2), (2, 2), (2, 0)] := by
  constructor
  · intro t ht
    match hp : t.points with
    | [] => exact absurd hp ht
    | first :: rest =>
        have h0 : IsBounds [first] (first.x, first.x, first.y, first.y) := by
          refine ⟨⟨?_, ?_⟩, ⟨?_, ?_⟩, ⟨?_, ?_⟩, ⟨?_, ?_⟩⟩ <;> simp
        have hb := exterior_fold_bounds rest [first] _ h0
        refine ⟨(rest.foldl exteriorStep (first.x, first.x, first.y, first.y)).1,
          (rest.foldl exteriorStep (first.x, first.x, first.y, first.y)).2.1,
          (rest.foldl exteriorStep (first.x, first.x, first.y, first.y)).2.2.1,
          (rest.foldl exteriorStep (first.x, first.x, first.y, first.y)).2.2.2, ?_, ?_⟩
        · unfold HullTracker.exterior
          rw [hp]
        · simpa using hb
  · decide

/-- Witness for C7's general part at the spec's three-point set. -/
theorem C7_exterior_bounding_rectangle_witness :
    (HullTracker.points ⟨[⟨0, 0⟩, ⟨2, 0⟩, ⟨0, 2⟩]⟩ ≠ []) ∧
      (∃ mnx mxx mny mxy,
        HullTracker.exterior ⟨[⟨0, 0⟩, ⟨2, 0⟩, ⟨0, 2⟩]⟩ =
          some (boundingbox (mnx, mny) (mxx, mxy)) ∧
        IsBounds (HullTracker.points ⟨[⟨0, 0⟩, ⟨2, 0⟩, ⟨0, 2⟩]⟩) (mnx, mxx, mny, mxy)) :=
  ⟨by decide, C7_exterior_bounding_rectangle.1 ⟨[⟨0, 0⟩, ⟨2, 0⟩, ⟨0, 2⟩]⟩ (by decide)⟩

/-- The regex engine's left-to-right scan computes exactly the
maximal-run substitution the claim describes. -/
theorem reSubScan_eq_subMaximalRuns (cs : List Char) :
    reSubScan false cs = subMaximalRuns cs ∧
    reSubScan true cs = subMaximalRuns (cs.dropWhile (fun d => !isWordCh d)) := by
  induction cs with
  | nil => constructor <;> simp [subMaximalRuns, reSubScan]
  | cons c cs ih =>
      by_cases hw : isWordCh c
      · constructor
        · rw [show reSubScan false (c :: cs) = c :: reSubScan false cs by
            simp [reSubScan, hw], ih.1]
          simp [subMaximalRuns, hw]
        · rw [show reSubScan true (c :: cs) = c :: reSubScan false cs by
            simp [reSubScan, hw], ih.1]
          rw [show (c :: cs).dropWhile (fun d => !isWordCh d) = c :: cs by
            simp [List.dropWhile, hw]]
          simp [subMaximalRuns, hw]
      · constructor
        · rw [show reSubScan false (c :: cs) = '_' :: reSubScan true cs by
            simp [reSubScan, hw], ih.2]
          simp [subMaximalRuns, hw]
        · rw [show reSubScan true (c :: cs) = reSubScan true cs by
            simp [reSubScan, hw], ih.2]
          rw [show (c :: cs).dropWhile (fun d => !isWordCh d) = cs.dropWhile (fun d => !isWordCh d) by
            simp [List.dropWhile, hw]]

/-- C8: `_clean_id` collapses each maximal run of non-word characters
(not alphanumeric, not underscore) to a single underscore and strips
leading and trailing underscores; in particular `"cube one!!"` maps to
`"cube_one"` and `"__a__"` to `"a"`. -/
theorem C8_clean_id_sanitization :
    (∀ s : String, clean_id s = cleanIdSpec s) ∧
      clean_id "cube one!!" = "cube_one" ∧ clean_id "__a__" = "a" :=
  ⟨fun s => by
    unfold clean_id cleanIdSpec
    rw [(reSubScan_eq_subMaximalRuns s.data).1],
   by decide, by decide⟩

/-- When no line of the leading blank/comment block carries a dialect
marker, the detection loop ends in an error: `noSlicerFound` at the first
non-comment line, or `processorNone` (calling the `None` processor) when
the file runs out. -/
theorem detectLoop_error (lines : List String)
    (h : ∀ l ∈ leadingBlock lines, ∀ m ∈ dialectMarkers, pyStartsWith (pyStrip l) m = false) :
    ∃ e, detectLoop lines = .error e := by
  induction lines with
  | nil => exact ⟨.processorNone, rfl⟩
  | cons l ls ih =>
      by_cases hb : (pyStrip l).data.isEmpty
      · have hl : leadingBlock (l :: ls) = l :: leadingBlock ls := by
          simp [leadingBlock, hb]
        obtain ⟨e, he⟩ := ih (fun x hx m hm => h x (by rw [hl]; exact List.mem_cons_of_mem _ hx) m hm)
        exact ⟨e, by simp [detectLoop, hb, he]⟩
      · by_cases hc : pyStartsWith l ";"
        · have hl : leadingBlock (l :: ls) = l :: leadingBlock ls := by
            simp [leadingBlock, hb, hc]
          have hid : identify_slicer_marker l = none := by
            unfold identify_slicer_marker
            have : List.find? (fun e => pyStartsWith (pyStrip l) e.2.1) SLICERS = none := by
              rw [List.find?_eq_none]
              intro x hx
              have := h l (by rw [hl]; exact List.mem_cons_self l _) x.2.1
                (List.mem_map_of_mem (fun e => e.2.1) hx)
              simp [this]
            rw [this]
            rfl
          obtain ⟨e, he⟩ := ih (fun x hx m hm => h x (by rw [hl]; exact List.mem_cons_of_mem _ hx) m hm)
          exact ⟨e, by simp [detectLoop, hb, hc, hid, he]⟩
        · exact ⟨.noSlicerFound, by simp [detectLoop, hb, hc]⟩

/-- Counterexample to C5 as stated: the one-line file
`DEFINE_OBJECT NAME=x` followed by `G28` has an empty leading
blank/comment block — so no line of that block starts with a dialect
marker — yet the preprocessor succeeds via the idempotency guard and the
driver commits the output. -/
theorem C5_detection_failure_counterexample :
    leadingBlock (pyLines "DEFINE_OBJECT NAME=x\nG28\n") = [] ∧
      preprocessor "DEFINE_OBJECT NAME=x\nG28\n" = .ok "DEFINE_OBJECT NAME=x\nG28\n" ∧
      process_file_for_cancellation "DEFINE_OBJECT NAME=x\nG28\n" =
        some "DEFINE_OBJECT NAME=x\nG28\n" :=
  ⟨by decide, by decide, by decide⟩

/-- C5 as amended: when additionally no line anywhere begins with
`DEFINE_OBJECT` (so the idempotency guard does not fire), a file whose
leading blank/comment block carries no dialect marker makes the
preprocessor fail — no success result — and the driver commits no output
file. -/
theorem C5_detection_failure_amended (s : String)
    (h1 : ∀ l ∈ pyLines s, pyStartsWith l DEFINE_OBJECT_TOKEN = false)
    (h2 : ∀ l ∈ leadingBlock (pyLines s), ∀ m ∈ dialectMarkers, pyStartsWith (pyStrip l) m = false) :
    (∃ e, preprocessor s = .error e) ∧ process_file_for_cancellation s = none := by
  have hany : ((pyLines s).any (fun l => pyStartsWith l DEFINE_OBJECT_TOKEN)) = false := by
    rw [List.any_eq_false]
    intro x hx
    simp [h1 x hx]
  obtain ⟨e, he⟩ := detectLoop_error (pyLines s) h2
  constructor
  · exact ⟨e, by simp [preprocessor, hany, he]⟩
  · simp [process_file_for_cancellation, preprocessor, hany, he]

/-- Witness for the amended C5 at a file with an unrecognized comment
header. -/
theorem C5_detection_failure_amended_witness :
    (∃ e, preprocessor "; sliced by SomethingElse\nG28\n" = .error e) ∧
      process_file_for_cancellation "; sliced by SomethingElse\nG28\n" = none :=
  C5_detection_failure_amended "; sliced by SomethingElse\nG28\n" (by decide) (by decide)

/-- Registering a new id adds no points to any object's hull. -/
theorem regPoints_insertNew {r : Registry} {i n id : String} {pt : Point}
    (h : pt ∈ regPoints (regInsertNew r i n) id) : pt ∈ regPoints r id := by
  unfold regInsertNew at h
  by_cases hc : (regLookup r i).isSome
  · rwa [if_pos hc] at h
  · rw [if_neg hc] at h
    unfold regPoints regLookup at h ⊢
    rw [show List.append r [(i, ⟨n, HullTracker.init⟩)] = r ++ [(i, ⟨n, HullTracker.init⟩)] from rfl,
      List.find?_append] at h
    cases hf : List.find? (fun e => e.1 == id) r with
    | some e => rw [hf] at h; simpa using h
    | none =>
        rw [hf] at h
        by_cases hii : ((i == id) = true)
        · simp [hii, HullTracker.init] at h
        · simp [Bool.eq_false_iff.mpr hii] at h


theorem regPoints_addPoint {r : Registry} {cid : String} {p : Point} {id : String} {pt : Point}
    (h : pt ∈ regPoints (regAddPoint r cid p) id) :
    pt ∈ regPoints r id ∨ (pt = p ∧ id = cid) := by
  induction r with
  | nil => simp [regPoints, regAddPoint, regLookup] at h
  | cons e rest ih =>
      by_cases hcc : ((e.1 == cid) = true) <;> by_cases hid : ((e.1 == id) = true) <;>
        simp only [regPoints, regAddPoint, regLookup, List.map_cons, List.find?, hcc, hid,
          if_true, if_false, Bool.false_eq_true, ite_true, ite_false] at h ⊢
      · replace h : pt ∈ (e.2.hull.add_point p).points := h
        unfold HullTracker.add_point at h
        by_cases hmem : p ∈ e.2.hull.points
        · rw [if_pos hmem] at h
          exact Or.inl h
        · rw [if_neg hmem] at h
          rcases List.mem_append.mp h with hin | hnew
          · exact Or.inl hin
          · refine Or.inr ⟨by simpa using hnew, ?_⟩
            have h1 : e.1 = id := beq_iff_eq.mp hid
            have h2 : e.1 = cid := beq_iff_eq.mp hcc
            rw [← h1, h2]
      · exact ih h
      · exact Or.inl h
      · exact ih h
/-- Success of the shared geometry subroutine: either nothing was added,
or the current hull got exactly the qualifying line's point. -/
theorem gAddPoint_spec {known : Registry} {cur : Option String} {l : String} {k2 : Registry}
    (h : gAddPoint known cur l = .ok k2) :
    ∀ id pt, pt ∈ regPoints k2 id →
      pt ∈ regPoints known id ∨ (cur = some id ∧ gPointOf l = some pt) := by
  intro id pt hpt
  cases cur with
  | none =>
      rw [show k2 = known from (Except.ok.inj h).symm] at hpt
      exact Or.inl hpt
  | some cid =>
      by_cases hgl : isGLine l
      · cases hpg : parse_gcode l with
        | none => exact absurd h (by simp [gAddPoint, hgl, hpg])
        | some cp =>
            obtain ⟨cmd, params⟩ := cp
            cases hE : gParam params 'E' with
            | none =>
                have hk : known = k2 := by
                  have h2 := h
                  simp [gAddPoint, hgl, hpg, hE] at h2
                  exact h2
                rw [← hk] at hpt
                exact Or.inl hpt
            | some es =>
                cases hX : gParam params 'X' with
                | none =>
                    have hk : known = k2 := by
                      have h2 := h
                      simp [gAddPoint, hgl, hpg, hE, hX] at h2
                      exact h2
                    rw [← hk] at hpt
                    exact Or.inl hpt
                | some xs =>
                    cases hY : gParam params 'Y' with
                    | none =>
                        have hk : known = k2 := by
                          have h2 := h
                          simp [gAddPoint, hgl, hpg, hE, hX, hY] at h2
                          exact h2
                        rw [← hk] at hpt
                        exact Or.inl hpt
                    | some ys =>
                        cases hfx : parsePyFloat xs with
                        | error e =>
                            exact absurd h
                              (by simp [gAddPoint, hgl, hpg, hE, hX, hY, hfx, ebind_error])
                        | ok x =>
                            cases hfy : parsePyFloat ys with
                            | error e =>
                                exact absurd h
                                  (by simp [gAddPoint, hgl, hpg, hE, hX, hY, hfx, hfy,
                                    ebind_ok, ebind_error])
                            | ok y =>
                                have hk : regAddPoint known cid ⟨x, y⟩ = k2 := by
                                  have h2 := h
                                  simp [gAddPoint, hgl, hpg, hE, hX, hY, hfx, hfy, ebind_ok] at h2
                                  exact h2
                                rw [← hk] at hpt
                                rcases regPoints_addPoint hpt with hin | ⟨hpp, hids⟩
                                · exact Or.inl hin
                                · refine Or.inr ⟨by rw [hids], ?_⟩
                                  rw [hpp]
                                  simp [gPointOf, hgl, hpg, hE, hX, hY, hfx, hfy]
      · have hk : known = k2 := by
          have h2 := h
          simp [gAddPoint, hgl] at h2
          exact h2
        rw [← hk] at hpt
        exact Or.inl hpt

/-- Inversion for `xs[1]`. -/
theorem pyIdx1_ok {xs : List String} {x : String} (h : pyIdx1 xs = .ok x) :
    ∃ a t, xs = a :: x :: t := by
  cases xs with
  | nil => exact absurd h (by simp [pyIdx1])
  | cons a rest =>
      cases rest with
      | nil => exact absurd h (by simp [pyIdx1])
      | cons b t => exact ⟨a, t, by rw [show b = x from Except.ok.inj h]⟩

/-- One scan step of `preprocess_slicer`: the resulting current id is the
line's printing id when the line is a printing line (else unchanged), and
any new point is the line's qualifying point, recorded for the new
current id. -/
theorem slicerScanStep_spec {known : Registry} {cur : Option String} {l : String}
    {k2 : Registry} {c2 : Option String}
    (h : slicerScanStep known cur l = .ok (k2, c2)) :
    c2 = (match printingIdOf l with | some i => some i | none => cur) ∧
    ∀ id pt, pt ∈ regPoints k2 id →
      pt ∈ regPoints known id ∨ (c2 = some id ∧ gPointOf l = some pt) := by
  by_cases hP : (pyStartsWith l "; printing object ") = true
  · cases hseg : pyIdx1 (pySplitSub "printing object" l) with
    | error e => exact absurd h (by simp [slicerScanStep, hP, hseg, ebind_error])
    | ok seg =>
        cases hg : gAddPoint (regInsertNew known (pyStrip seg) (clean_id (pyStrip seg)))
            (some (pyStrip seg)) l with
        | error e => exact absurd h (by simp [slicerScanStep, hP, hseg, hg, ebind_ok, ebind_error])
        | ok kk =>
            have hk : kk = k2 ∧ some (pyStrip seg) = c2 := by
              have h2 := h
              simp [slicerScanStep, hP, hseg, hg, ebind_ok] at h2
              exact h2
            have hpid : printingIdOf l = some (pyStrip seg) := by
              obtain ⟨a, t, hxs⟩ := pyIdx1_ok hseg
              simp [printingIdOf, hP, hxs]
            constructor
            · rw [hpid, ← hk.2]
            · intro id pt hpt
              rw [← hk.1] at hpt
              rcases gAddPoint_spec hg id pt hpt with hin | ⟨hc, hgp⟩
              · exact Or.inl (regPoints_insertNew hin)
              · exact Or.inr ⟨by rw [← hk.2]; exact hc, hgp⟩
  · have hpid : printingIdOf l = none := by simp [printingIdOf, hP]
    cases hg : gAddPoint known cur l with
    | error e => exact absurd h (by simp [slicerScanStep, hP, hg, ebind_error])
    | ok kk =>
        have hk : kk = k2 ∧ cur = c2 := by
          have h2 := h
          simp [slicerScanStep, hP, hg, ebind_ok] at h2
          exact h2
        constructor
        · rw [hpid, hk.2]
        · intro id pt hpt
          rw [← hk.1] at hpt
          rcases gAddPoint_spec hg id pt hpt with hin | ⟨hc, hgp⟩
          · exact Or.inl hin
          · exact Or.inr ⟨by rw [← hk.2]; exact hc, hgp⟩

/-- Soundness of the `preprocess_slicer` scan pass, generalized over the
starting state: every recorded point stems from a qualifying G-command
line whose most recent preceding `"; printing object"` line names the
point's object. -/
theorem slicerScan_points (lines : List String) :
    ∀ (known : Registry) (cur : Option String) (R : Registry),
      slicerScanGo known cur lines = .ok R →
      ∀ id pt, pt ∈ regPoints R id →
        pt ∈ regPoints known id ∨
        ∃ pre l suf, lines = pre ++ l :: suf ∧ gPointOf l = some pt ∧
          lastPrintOwner cur (pre ++ [l]) = some id := by
  induction lines with
  | nil =>
      intro known cur R h id pt hpt
      rw [show known = R from Except.ok.inj h]
      exact Or.inl hpt
  | cons l ls ih =>
      intro known cur R h id pt hpt
      cases hstep : slicerScanStep known cur l with
      | error e => exact absurd h (by simp [slicerScanGo, hstep, ebind_error])
      | ok st2 =>
          obtain ⟨k2, c2⟩ := st2
          have h2 : slicerScanGo k2 c2 ls = .ok R := by
            have h3 := h
            simp only [slicerScanGo, hstep, ebind_ok] at h3
            exact h3
          obtain ⟨hc2, hspec⟩ := slicerScanStep_spec hstep
          rcases ih k2 c2 R h2 id pt hpt with hin | ⟨pre, l', suf, hsplit, hg, hown⟩
          · rcases hspec id pt hin with hin2 | ⟨hcid, hgp⟩
            · exact Or.inl hin2
            · refine Or.inr ⟨[], l, ls, rfl, hgp, ?_⟩
              have hlp : lastPrintOwner cur ([] ++ [l]) = c2 := by
                rw [show lastPrintOwner cur ([] ++ [l]) =
                  (match printingIdOf l with | some i => some i | none => cur) from rfl]
                exact hc2.symm
              rw [hlp]
              exact hcid
          · refine Or.inr ⟨l :: pre, l', suf, by rw [hsplit]; rfl, hg, ?_⟩
            have hlp : lastPrintOwner cur ((l :: pre) ++ [l']) =
                lastPrintOwner c2 (pre ++ [l']) := by
              rw [show lastPrintOwner cur ((l :: pre) ++ [l']) =
                lastPrintOwner (match printingIdOf l with | some i => some i | none => cur)
                  (pre ++ [l']) from rfl]
              rw [← hc2]
            rw [hlp]
            exact hown

/-- Counterexample to C3 as stated: in this file the only print window of
object `a` is (line 0, line 1), which contains no line strictly between
its boundaries; yet the scan pass records the point (1,2) of the
qualifying G-command at line 2 — after the stop marker — into `a`'s hull,
because the scan never closes the current hull on a stop line. -/
theorem C3_slicer_windows_counterexample :
    slicerScanGo [] none slicerCexLines = .ok [("a", ⟨"a", ⟨[⟨1, 2⟩]⟩⟩)] ∧
      pyWindows slicerCexLines "a" = [(0, 1)] ∧
      gPointOf "G1 X1 Y2 E5\n" = some ⟨1, 2⟩ ∧
      regPoints [("a", ⟨"a", ⟨[⟨1, 2⟩]⟩⟩)] "a" ≠ [] :=
  ⟨by decide, by decide, by decide, by decide⟩

/-- C3 as amended: in the PrusaSlicer/Slic3r scan pass a point enters an
object's hull only from a qualifying G-command line whose most recent
preceding `"; printing object <id>"` line names that object — the
`"; stop printing object"` line does not close the window, so
accumulation continues until the next printing-object line (or the end of
the file). -/
theorem C3_slicer_scan_amended (lines : List String) (R : Registry) (id : String) (pt : Point)
    (h : slicerScanGo [] none lines = .ok R) (hpt : pt ∈ regPoints R id) :
    ∃ pre l suf, lines = pre ++ l :: suf ∧ gPointOf l = some pt ∧
      lastPrintOwner none (pre ++ [l]) = some id := by
  rcases slicerScan_points lines [] none R h id pt hpt with hin | hex
  · simp [regPoints, regLookup] at hin
  · exact hex

/-- Witness for the amended C3 at the counterexample file. -/
theorem C3_slicer_scan_amended_witness :
    slicerScanGo [] none slicerCexLines = .ok [("a", ⟨"a", ⟨[⟨1, 2⟩]⟩⟩)] ∧
      ((⟨1, 2⟩ : Point) ∈ regPoints [("a", ⟨"a", ⟨[⟨1, 2⟩]⟩⟩)] "a") ∧
      (∃ pre l suf, slicerCexLines = pre ++ l :: suf ∧ gPointOf l = some ⟨1, 2⟩ ∧
        lastPrintOwner none (pre ++ [l]) = some "a") :=
  ⟨by decide, by decide,
    C3_slicer_scan_amended slicerCexLines [("a", ⟨"a", ⟨[⟨1, 2⟩]⟩⟩)] "a" ⟨1, 2⟩
      (by decide) (by decide)⟩

/-- A fragment whose first character is not `S` is not a start marker. -/
theorem not_start_of_head {f : String} {c : Char} {t : List Char}
    (hf : f.data = c :: t) (hc : c ≠ 'S') : isStartFrag f = false := by
  unfold isStartFrag pyStartsWith
  rw [hf, show "START_CURRENT_OBJECT".data = 'S' :: "TART_CURRENT_OBJECT".data from rfl]
  have hsc : ('S' == c) = false := by
    rw [beq_eq_false_iff_ne]
    exact fun hh => hc hh.symm
  simp [List.isPrefixOf, hsc]

/-- A fragment whose first character is not `E` is not an end marker. -/
theorem not_end_of_head {f : String} {c : Char} {t : List Char}
    (hf : f.data = c :: t) (hc : c ≠ 'E') : isEndFrag f = false := by
  unfold isEndFrag pyStartsWith
  rw [hf, show "END_CURRENT_OBJECT".data = 'E' :: "ND_CURRENT_OBJECT".data from rfl]
  have hsc : ('E' == c) = false := by
    rw [beq_eq_false_iff_ne]
    exact fun hh => hc hh.symm
  simp [List.isPrefixOf, hsc]

/-- Recognition of an emitted start marker, and the name it carries. -/
theorem start_marker_frags (n : String) :
    isStartFrag ("START_CURRENT_OBJECT NAME=" ++ n ++ "\n") = true ∧
    isEndFrag ("START_CURRENT_OBJECT NAME=" ++ n ++ "\n") = false ∧
    startFragName ("START_CURRENT_OBJECT NAME=" ++ n ++ "\n") = n := by
  refine ⟨?_, ?_, ?_⟩
  · unfold isStartFrag pyStartsWith
    rw [show ("START_CURRENT_OBJECT NAME=" ++ n ++ "\n").data
        = "START_CURRENT_OBJECT".data ++ (" NAME=".data ++ n.data ++ ['\n']) from by
      show ("START_CURRENT_OBJECT NAME=".data ++ n.data) ++ ['\n'] = _
      rw [show "START_CURRENT_OBJECT NAME=".data
        = "START_CURRENT_OBJECT".data ++ " NAME=".data from rfl]
      simp [List.append_assoc]]
    rw [List.isPrefixOf_iff_prefix]
    exact List.prefix_append _ _
  · exact not_end_of_head rfl (by decide)
  · unfold startFragName
    rw [show ("START_CURRENT_OBJECT NAME=" ++ n ++ "\n").data
        = "START_CURRENT_OBJECT NAME=".data ++ (n.data ++ ['\n']) from by
      show ("START_CURRENT_OBJECT NAME=".data ++ n.data) ++ ['\n'] = _
      simp [List.append_assoc]]
    rw [show (26 : Nat) = "START_CURRENT_OBJECT NAME=".data.length from by decide,
      List.drop_left, List.dropLast_concat]
    rfl

/-- Recognition of an emitted end marker. -/
theorem end_marker_frags (n : String) :
    isStartFrag ("END_CURRENT_OBJECT NAME=" ++ n ++ "\n") = false ∧
    isEndFrag ("END_CURRENT_OBJECT NAME=" ++ n ++ "\n") = true := by
  refine ⟨not_start_of_head rfl (by decide), ?_⟩
  unfold isEndFrag pyStartsWith
  rw [show ("END_CURRENT_OBJECT NAME=" ++ n ++ "\n").data
      = "END_CURRENT_OBJECT".data ++ (" NAME=".data ++ n.data ++ ['\n']) from by
    show ("END_CURRENT_OBJECT NAME=".data ++ n.data) ++ ['\n'] = _
    rw [show "END_CURRENT_OBJECT NAME=".data
      = "END_CURRENT_OBJECT".data ++ " NAME=".data from rfl]
    simp [List.append_assoc]]
  rw [List.isPrefixOf_iff_prefix]
  exact List.prefix_append _ _

/-- The balance automaton ignores a non-marker fragment. -/
theorem balAux_skip (op : Option String) {f : String} (h1 : isStartFrag f = false)
    (h2 : isEndFrag f = false) (fs : List String) :
    markersBalancedAux op (f :: fs) = markersBalancedAux op fs := by
  simp [markersBalancedAux, h1, h2]

/-- The balance automaton ignores a block of non-marker fragments. -/
theorem balAux_skips (op : Option String) {xs : List String}
    (h : ∀ f ∈ xs, isStartFrag f = false ∧ isEndFrag f = false) (fs : List String) :
    markersBalancedAux op (xs ++ fs) = markersBalancedAux op fs := by
  induction xs with
  | nil => rfl
  | cons x rest ih =>
      rw [List.cons_append,
        balAux_skip op (h x (List.mem_cons_self x rest)).1 (h x (List.mem_cons_self x rest)).2,
        ih (fun f hf => h f (List.mem_cons_of_mem x hf))]

/-- An emitted start marker opens its object when none is open. -/
theorem balAux_start (n : String) (fs : List String) :
    markersBalancedAux none (("START_CURRENT_OBJECT NAME=" ++ n ++ "\n") :: fs) =
      markersBalancedAux (some n) fs := by
  obtain ⟨h1, _, h3⟩ := start_marker_frags n
  simp [markersBalancedAux, h1, h3]

/-- An emitted end marker closes the object the automaton holds open. -/
theorem balAux_end (n : String) (fs : List String) :
    markersBalancedAux (some n) (("END_CURRENT_OBJECT NAME=" ++ n ++ "\n") :: fs) =
      markersBalancedAux none fs := by
  obtain ⟨h1, h2⟩ := end_marker_frags n
  simp [markersBalancedAux, h1, h2]

/-- Header fragments are not markers. -/
theorem headerFrags_not_markers (n : Int) :
    ∀ f ∈ headerFrags n, isStartFrag f = false ∧ isEndFrag f = false := by
  intro f hf
  simp only [headerFrags, HEADER_MARKER, List.mem_cons, List.mem_singleton] at hf
  rcases hf with h | h | h | h
  · subst h; exact ⟨not_start_of_head rfl (by decide), not_end_of_head rfl (by decide)⟩
  · subst h; exact ⟨not_start_of_head rfl (by decide), not_end_of_head rfl (by decide)⟩
  · subst h
    have hdata : ("; " ++ intToStr n ++ " known objects\n").data
        = ';' :: ((' ' :: (intToStr n).data) ++ " known objects\n".data) := rfl
    exact ⟨not_start_of_head hdata (by decide), not_end_of_head hdata (by decide)⟩
  · cases h

/-- Fragments of an object definition are not start/end markers. -/
theorem define_object_not_markers {nm : String} {c : Option Json}
    {p : Option (List (PyNum × PyNum))} {out : List String}
    (h : define_object nm c p = .ok out) :
    ∀ f ∈ out, isStartFrag f = false ∧ isEndFrag f = false := by
  have hhead : isStartFrag ("DEFINE_OBJECT NAME=" ++ nm) = false ∧
      isEndFrag ("DEFINE_OBJECT NAME=" ++ nm) = false :=
    ⟨not_start_of_head rfl (by decide), not_end_of_head rfl (by decide)⟩
  have hnl : isStartFrag "\n" = false ∧ isEndFrag "\n" = false :=
    ⟨not_start_of_head rfl (by decide), not_end_of_head rfl (by decide)⟩
  have hpoly : ∀ g ∈ polyFragsOf p, isStartFrag g = false ∧ isEndFrag g = false := by
    intro g hg
    cases p with
    | none => cases hg
    | some ps =>
        unfold polyFragsOf at hg
        by_cases hemp : (ps.isEmpty = true) <;> simp [hemp] at hg
        subst hg
        exact ⟨not_start_of_head rfl (by decide), not_end_of_head rfl (by decide)⟩
  cases c with
  | none =>
      have hout : out = ["DEFINE_OBJECT NAME=" ++ nm] ++ [] ++ polyFragsOf p ++ ["\n"] :=
        (Except.ok.inj h).symm
      intro f hf
      rw [hout] at hf
      rcases List.mem_append.mp hf with hf1 | hf1
      · rcases List.mem_append.mp hf1 with hf2 | hf2
        · rcases List.mem_append.mp hf2 with hf3 | hf3
          · rw [List.mem_singleton.mp hf3]; exact hhead
          · cases hf3
        · exact hpoly f hf2
      · rw [List.mem_singleton.mp hf1]; exact hnl
  | some j =>
      by_cases hj : (jTruthy j = true)
      · cases hd : dump_coords j with
        | error e => exact absurd h (by simp [define_object, hj, hd, ebind_error])
        | ok s =>
            have hout : out = ["DEFINE_OBJECT NAME=" ++ nm] ++ [" CENTER=" ++ s]
                ++ polyFragsOf p ++ ["\n"] := by
              have h2 := h
              simp only [define_object, hj, hd, if_true, ebind_ok] at h2
              exact (Except.ok.inj h2).symm
            intro f hf
            rw [hout] at hf
            rcases List.mem_append.mp hf with hf1 | hf1
            · rcases List.mem_append.mp hf1 with hf2 | hf2
              · rcases List.mem_append.mp hf2 with hf3 | hf3
                · rw [List.mem_singleton.mp hf3]; exact hhead
                · rw [List.mem_singleton.mp hf3]
                  exact ⟨not_start_of_head rfl (by decide), not_end_of_head rfl (by decide)⟩
              · exact hpoly f hf2
            · rw [List.mem_singleton.mp hf1]; exact hnl
      · have hout : out = ["DEFINE_OBJECT NAME=" ++ nm] ++ []
            ++ polyFragsOf p ++ ["\n"] := by
          have h2 := h
          simp only [define_object, hj, if_false, Bool.false_eq_true] at h2
          exact (Except.ok.inj h2).symm
        intro f hf
        rw [hout] at hf
        rcases List.mem_append.mp hf with hf1 | hf1
        · rcases List.mem_append.mp hf1 with hf2 | hf2
          · rcases List.mem_append.mp hf2 with hf3 | hf3
            · rw [List.mem_singleton.mp hf3]; exact hhead
            · cases hf3
          · exact hpoly f hf2
        · rw [List.mem_singleton.mp hf1]; exact hnl

/-- Fragments of the definitions block are not start/end markers. -/
theorem regDefines_not_markers {r : Registry} {defs : List String}
    (h : regDefines r = .ok defs) :
    ∀ f ∈ defs, isStartFrag f = false ∧ isEndFrag f = false := by
  induction r generalizing defs with
  | nil =>
      rw [show defs = [] from (Except.ok.inj h).symm]
      intro f hf
      cases hf
  | cons e rest ih =>
      cases hd : define_object e.2.name (centerJson e.2.hull.center) (polygonPairs e.2.hull.exterior) with
      | error er => exact absurd h (by simp [regDefines, hd, ebind_error])
      | ok d =>
          cases hr : regDefines rest with
          | error er => exact absurd h (by simp [regDefines, hd, hr, ebind_ok, ebind_error])
          | ok ds =>
              have hout : defs = d ++ ds := by
                have h2 := h
                simp only [regDefines, hd, hr, ebind_ok] at h2
                exact (Except.ok.inj h2).symm
              intro f hf
              rw [hout] at hf
              rcases List.mem_append.mp hf with hf | hf
              · exact define_object_not_markers hd f hf
              · exact ih hr f hf

/-- Fragments of the `TOTAL_NUM` handler are not start/end markers. -/
theorem ideaTotalStage_not_markers {known : Registry} {l : String} {tf : List String}
    (h : ideaTotalStage known l = .ok tf) :
    ∀ f ∈ tf, isStartFrag f = false ∧ isEndFrag f = false := by
  by_cases hT : (pyStartsWith l ";TOTAL_NUM:") = true
  · cases hseg : pyIdx1 (pySplitChar ':' l) with
    | error e => exact absurd h (by simp [ideaTotalStage, hT, hseg, ebind_error])
    | ok seg =>
        cases hn : parsePyInt (pyStrip seg) with
        | error e => exact absurd h (by simp [ideaTotalStage, hT, hseg, hn, ebind_ok, ebind_error])
        | ok n =>
            by_cases hEq : n = (regLen known : Int)
            · cases hds : regDefines known with
              | error e =>
                  exact absurd h
                    (by simp [ideaTotalStage, hT, hseg, hn, hEq, hds, ebind_ok, ebind_error])
              | ok ds =>
                  have hout : tf = headerFrags n ++ ds := by
                    have h2 := h
                    simp only [ideaTotalStage, hT, hseg, hn, hEq, hds, ebind_ok, if_true] at h2
                    rw [hEq]
                    exact (Except.ok.inj h2).symm
                  intro f hf
                  rw [hout] at hf
                  rcases List.mem_append.mp hf with hf | hf
                  · exact headerFrags_not_markers n f hf
                  · exact regDefines_not_markers hds f hf
            · exact absurd h (by simp [ideaTotalStage, hT, hseg, hn, hEq, ebind_ok])
  · have hout : tf = [] := by
      have h2 := h
      simp only [ideaTotalStage, hT, Bool.false_eq_true, if_false] at h2
      exact (Except.ok.inj h2).symm
    rw [hout]
    intro f hf
    cases hf

/-- Closing the open object (if any) returns the automaton to the
no-open-object state. -/
theorem balAux_endFrags (cur : Option KnownObject) (fs : List String) :
    markersBalancedAux (Option.map KnownObject.name cur) (endFragsOf cur ++ fs) =
      markersBalancedAux none fs := by
  cases cur with
  | none => rfl
  | some ko =>
      rw [show (endFragsOf (some ko) ++ fs : List String)
        = ("END_CURRENT_OBJECT NAME=" ++ ko.name ++ "\n") :: fs from rfl]
      exact balAux_end ko.name fs

/-- The `PRINTING_ID` handler's fragments move the balance automaton from
the incoming open object to the outgoing one. -/
theorem ideaPrintingStage_balance {known : Registry} {cur : Option KnownObject} {l : String}
    {mf : List String} {cur1 : Option KnownObject} {skip : Bool}
    (h : ideaPrintingStage known cur l = .ok (mf, cur1, skip)) (fs : List String) :
    markersBalancedAux (Option.map KnownObject.name cur) (mf ++ fs) =
      markersBalancedAux (Option.map KnownObject.name cur1) fs := by
  by_cases hP : (pyStartsWith l ";PRINTING_ID:") = true
  · cases hseg : pyIdx1 (pySplitChar ':' l) with
    | error e => exact absurd h (by simp [ideaPrintingStage, hP, hseg, ebind_error])
    | ok seg =>
        by_cases hm1 : ((pyStrip seg == "-1") = true)
        · have hout : mf = endFragsOf cur ∧ cur1 = none := by
            have h2 := h
            simp only [ideaPrintingStage, hP, hseg, hm1, ebind_ok, if_true] at h2
            have h3 := Except.ok.inj h2
            exact ⟨(congrArg Prod.fst h3).symm, (congrArg (fun x => x.2.1) h3).symm⟩
          rw [hout.1, hout.2]
          exact balAux_endFrags cur fs
        · have hm1' : ¬(pyStrip seg = "-1") := by simpa using hm1
          cases hlk : regLookup known (pyStrip seg) with
          | none => exact absurd h (by simp [ideaPrintingStage, hP, hseg, hm1', hlk, ebind_ok])
          | some ko2 =>
              have hout : mf = endFragsOf cur ++ object_start_marker ko2.name ∧
                  cur1 = some ko2 := by
                have h2 := h
                simp only [ideaPrintingStage, hP, hseg, hm1, hlk, ebind_ok, Bool.false_eq_true,
                  if_false] at h2
                have h3 := Except.ok.inj h2
                exact ⟨(congrArg Prod.fst h3).symm, (congrArg (fun x => x.2.1) h3).symm⟩
              rw [hout.1, hout.2, List.append_assoc, balAux_endFrags cur]
              rw [show (object_start_marker ko2.name ++ fs : List String)
                = ("START_CURRENT_OBJECT NAME=" ++ ko2.name ++ "\n") :: fs from rfl]
              exact balAux_start ko2.name fs
  · have hout : mf = [] ∧ cur1 = cur := by
      have h2 := h
      simp only [ideaPrintingStage, hP, Bool.false_eq_true, if_false] at h2
      have h3 := Except.ok.inj h2
      exact ⟨(congrArg Prod.fst h3).symm, (congrArg (fun x => x.2.1) h3).symm⟩
    rw [hout.1, hout.2]
    rfl

/-- The `REMAINING_TIME` handler's fragments move the balance automaton
accordingly. -/
theorem ideaRemainingStage_balance (cur1 : Option KnownObject) (l : String) (skip : Bool)
    (fs : List String) :
    markersBalancedAux (Option.map KnownObject.name cur1)
      ((ideaRemainingStage cur1 l skip).1 ++ fs) =
    markersBalancedAux (Option.map KnownObject.name (ideaRemainingStage cur1 l skip).2) fs := by
  unfold ideaRemainingStage
  by_cases hc : ((!skip && l == ";REMAINING_TIME: 0\n") = true)
  · rw [if_pos hc]
    cases cur1 with
    | none => rfl
    | some ko => exact balAux_endFrags (some ko) fs
  · rw [if_neg hc]
    rfl

/-- One IdeaMaker emission step moves the balance automaton from the
incoming open object to the outgoing one, for non-marker input lines. -/
theorem ideaEmitStep_balance {known : Registry} {cur : Option KnownObject} {l : String}
    {frags : List String} {cur2 : Option KnownObject}
    (hl1 : isStartFrag l = false) (hl2 : isEndFrag l = false)
    (h : ideaEmitStep known cur l = .ok (frags, cur2)) (fs : List String) :
    markersBalancedAux (Option.map KnownObject.name cur) (frags ++ fs) =
      markersBalancedAux (Option.map KnownObject.name cur2) fs := by
  cases htf : ideaTotalStage known l with
  | error e => exact absurd h (by simp [ideaEmitStep, htf, ebind_error])
  | ok tf =>
      cases hps : ideaPrintingStage known cur l with
      | error e => exact absurd h (by simp [ideaEmitStep, htf, hps, ebind_ok, ebind_error])
      | ok trip =>
          obtain ⟨mf, cur1, skip⟩ := trip
          have hout : frags = [l] ++ tf ++ mf ++ (ideaRemainingStage cur1 l skip).1 ∧
              cur2 = (ideaRemainingStage cur1 l skip).2 := by
            have h2 := h
            simp only [ideaEmitStep, htf, hps, ebind_ok] at h2
            have h3 := Except.ok.inj h2
            exact ⟨(congrArg Prod.fst h3).symm, (congrArg Prod.snd h3).symm⟩
          rw [hout.1, hout.2]
          rw [show ([l] ++ tf ++ mf ++ (ideaRemainingStage cur1 l skip).1) ++ fs
            = l :: (tf ++ (mf ++ ((ideaRemainingStage cur1 l skip).1 ++ fs))) from by
              simp [List.append_assoc]]
          rw [balAux_skip _ hl1 hl2]
          rw [balAux_skips _ (ideaTotalStage_not_markers htf)]
          rw [ideaPrintingStage_balance hps]
          exact ideaRemainingStage_balance cur1 l skip fs

/-- The IdeaMaker emission loop produces balanced markers from any
starting state, for marker-free input lines (the final close after the
last line included). -/
theorem ideaEmitGo_balance {known : Registry} (lines : List String)
    (hlines : ∀ l ∈ lines, isStartFrag l = false ∧ isEndFrag l = false) :
    ∀ (cur : Option KnownObject) (out : List String),
      ideaEmitGo known cur lines = .ok out →
      markersBalancedAux (Option.map KnownObject.name cur) out = true := by
  induction lines with
  | nil =>
      intro cur out h
      cases cur with
      | none => rw [show out = [] from (Except.ok.inj h).symm]; rfl
      | some ko =>
          rw [show out = object_end_marker ko.name from (Except.ok.inj h).symm]
          rw [show (object_end_marker ko.name : List String)
            = ("END_CURRENT_OBJECT NAME=" ++ ko.name ++ "\n") :: [] from rfl,
            show Option.map KnownObject.name (some ko) = some ko.name from rfl,
            balAux_end ko.name]
          rfl
  | cons l ls ih =>
      intro cur out h
      cases hstep : ideaEmitStep known cur l with
      | error e => exact absurd h (by simp [ideaEmitGo, hstep, ebind_error])
      | ok pr =>
          obtain ⟨f1, cur'⟩ := pr
          cases hrest : ideaEmitGo known cur' ls with
          | error e => exact absurd h (by simp [ideaEmitGo, hstep, hrest, ebind_ok, ebind_error])
          | ok f2 =>
              have hout : out = f1 ++ f2 := by
                have h2 := h
                simp only [ideaEmitGo, hstep, hrest, ebind_ok] at h2
                exact (Except.ok.inj h2).symm
              rw [hout]
              rw [ideaEmitStep_balance (hlines l (List.mem_cons_self l ls)).1
                (hlines l (List.mem_cons_self l ls)).2 hstep f2]
              exact ih (fun f hf => hlines f (List.mem_cons_of_mem l hf)) cur' f2 hrest

/-- The IdeaMaker parser's successful output has balanced markers when
the input itself carries no marker-prefixed lines. -/
theorem preprocess_ideamaker_balanced {lines : List String} {out : List String}
    (hlines : ∀ l ∈ lines, isStartFrag l = false ∧ isEndFrag l = false)
    (h : preprocess_ideamaker lines = .ok out) :
    markersBalanced out = true := by
  cases hscan : ideaScanGo [] none lines with
  | error e => exact absurd h (by simp [preprocess_ideamaker, hscan, ebind_error])
  | ok known =>
      have h2 : ideaEmitGo known none lines = .ok out := by
        have h3 := h
        simp only [preprocess_ideamaker, hscan, ebind_ok] at h3
        exact h3
      exact ideaEmitGo_balance lines hlines none out h2

/-- A non-empty string has non-empty character data. -/
theorem strNeEmpty {n : String} (h : ¬n = "") : (!n.data.isEmpty) = true := by
  cases n with
  | mk data =>
      cases data with
      | nil => exact absurd rfl h
      | cons c cs => rfl

/-- Lookup success means the found object is registered. -/
theorem regLookup_mem {known : Registry} {key : String} {ko : KnownObject}
    (h : regLookup known key = some ko) : (key, ko) ∈ known := by
  unfold regLookup at h
  cases hfind : List.find? (fun e => e.1 == key) known with
  | none => rw [hfind] at h; cases h
  | some pr =>
      rw [hfind] at h
      have h1 : pr.2 = ko := by simpa using h
      have h2' := List.find?_some hfind
      have h2 : pr.1 = key := by simpa using h2'
      have h3 : (key, ko) = pr := by
        cases pr
        simp only at h1 h2
        rw [h1, h2]
      rw [h3]
      exact List.mem_of_find?_eq_some hfind

/-- The Cura `";MESH:"` handler moves the balance automaton from the
incoming open object to the outgoing one, provided every registered name
and the possibly open name are non-empty (Cura tests the *string*
truthiness of `current_object`, so an empty name would not be closed). -/
theorem curaMeshStage_balance {known : Registry} {cur : Option String} {l : String}
    {mf : List String} {cur1 : Option String} {skip : Bool}
    (hK : ∀ e ∈ known, ¬e.2.name = "")
    (hcur : ∀ n, cur = some n → ¬n = "")
    (h : curaMeshStage known cur l = .ok (mf, cur1, skip)) (fs : List String) :
    markersBalancedAux cur (mf ++ fs) = markersBalancedAux cur1 fs ∧
      (∀ n, cur1 = some n → ¬n = "") := by
  by_cases hM : (pyStartsWith l ";MESH:") = true
  · cases hseg : pySplitOnce1 ':' l with
    | error e => exact absurd h (by simp [curaMeshStage, hM, hseg, ebind_error])
    | ok seg =>
        by_cases hNM : ((pyStrip seg == "NONMESH") = true)
        · cases cur with
          | none =>
              have hout : mf = [] ∧ cur1 = none := by
                have h2 := h
                simp only [curaMeshStage, hM, hseg, hNM, ebind_ok, if_true,
                  curTruthy, Bool.false_eq_true, if_false] at h2
                have h3 := Except.ok.inj h2
                exact ⟨(congrArg Prod.fst h3).symm, (congrArg (fun x => x.2.1) h3).symm⟩
              rw [hout.1, hout.2]
              exact ⟨rfl, fun n hn => by cases hn⟩
          | some nm =>
              have hnm : ¬nm = "" := hcur nm rfl
              have ht : curTruthy (some nm) = true := strNeEmpty hnm
              have hout : mf = object_end_marker nm ∧ cur1 = none := by
                have h2 := h
                simp only [curaMeshStage, hM, hseg, hNM, ebind_ok, if_true, ht,
                  Option.getD_some] at h2
                have h3 := Except.ok.inj h2
                exact ⟨(congrArg Prod.fst h3).symm, (congrArg (fun x => x.2.1) h3).symm⟩
              rw [hout.1, hout.2]
              refine ⟨?_, fun n hn => by cases hn⟩
              rw [show (object_end_marker nm ++ fs : List String)
                = ("END_CURRENT_OBJECT NAME=" ++ nm ++ "\n") :: fs from rfl]
              exact balAux_end nm fs
        · have hNM' : ¬(pyStrip seg = "NONMESH") := by simpa using hNM
          cases hlk : regLookup known (pyStrip seg) with
          | none => exact absurd h (by simp [curaMeshStage, hM, hseg, hNM', hlk, ebind_ok])
          | some ko =>
              have hko : ¬ko.name = "" := hK _ (regLookup_mem hlk)
              have hstart : ∀ gs : List String,
                  markersBalancedAux none (object_start_marker ko.name ++ gs) =
                    markersBalancedAux (some ko.name) gs := by
                intro gs
                rw [show (object_start_marker ko.name ++ gs : List String)
                  = ("START_CURRENT_OBJECT NAME=" ++ ko.name ++ "\n") :: gs from rfl]
                exact balAux_start ko.name gs
              cases cur with
              | none =>
                  have hout : mf = [] ++ object_start_marker ko.name ∧ cur1 = some ko.name := by
                    have h2 := h
                    simp only [curaMeshStage, hM, hseg, hNM', ebind_ok, hlk, curTruthy,
                      Bool.false_eq_true, if_false, beq_iff_eq] at h2
                    have h3 := Except.ok.inj h2
                    exact ⟨(congrArg Prod.fst h3).symm, (congrArg (fun x => x.2.1) h3).symm⟩
                  rw [hout.1, hout.2, List.nil_append]
                  refine ⟨hstart fs, ?_⟩
                  intro n hn
                  rw [show n = ko.name from (Option.some.inj hn).symm]
                  exact hko
              | some nm =>
                  have hnm : ¬nm = "" := hcur nm rfl
                  have ht : curTruthy (some nm) = true := strNeEmpty hnm
                  have hout : mf = object_end_marker nm ++ object_start_marker ko.name ∧
                      cur1 = some ko.name := by
                    have h2 := h
                    simp only [curaMeshStage, hM, hseg, hNM', ebind_ok, hlk, ht,
                      Option.getD_some, beq_iff_eq] at h2
                    have h3 := Except.ok.inj h2
                    exact ⟨(congrArg Prod.fst h3).symm, (congrArg (fun x => x.2.1) h3).symm⟩
                  rw [hout.1, hout.2, List.append_assoc]
                  refine ⟨?_, ?_⟩
                  · rw [show (object_end_marker nm ++ (object_start_marker ko.name ++ fs) : List String)
                      = ("END_CURRENT_OBJECT NAME=" ++ nm ++ "\n")
                        :: (object_start_marker ko.name ++ fs) from rfl]
                    rw [balAux_end nm]
                    exact hstart fs
                  · intro n hn
                    rw [show n = ko.name from (Option.some.inj hn).symm]
                    exact hko
  · have hout : mf = [] ∧ cur1 = cur := by
      have h2 := h
      simp only [curaMeshStage, hM, Bool.false_eq_true, if_false] at h2
      have h3 := Except.ok.inj h2
      exact ⟨(congrArg Prod.fst h3).symm, (congrArg (fun x => x.2.1) h3).symm⟩
    rw [hout.1, hout.2]
    exact ⟨rfl, hcur⟩

/-- The Cura `";TIME_ELAPSED:"` handler moves the balance automaton
accordingly, preserving the non-empty-name invariant. -/
theorem curaTimeStage_balance (lastTE : Option String) (cur1 : Option String) (l : String)
    (skip : Bool) (hcur : ∀ n, cur1 = some n → ¬n = "") (fs : List String) :
    markersBalancedAux cur1 ((curaTimeStage lastTE cur1 l skip).1 ++ fs) =
      markersBalancedAux (curaTimeStage lastTE cur1 l skip).2 fs ∧
      (∀ n, (curaTimeStage lastTE cur1 l skip).2 = some n → ¬n = "") := by
  unfold curaTimeStage
  by_cases hc : ((!skip && (match lastTE with | some lt => l == lt | none => false)
      && curTruthy cur1) = true)
  · rw [if_pos hc]
    cases cur1 with
    | none => simp [curTruthy] at hc
    | some nm =>
        refine ⟨?_, fun n hn => by cases hn⟩
        rw [show ((some nm : Option String).getD "") = nm from rfl]
        rw [show (object_end_marker nm ++ fs : List String)
          = ("END_CURRENT_OBJECT NAME=" ++ nm ++ "\n") :: fs from rfl]
        exact balAux_end nm fs
  · rw [if_neg hc]
    exact ⟨rfl, hcur⟩

/-- One Cura emission step moves the balance automaton from the incoming
open object to the outgoing one, for non-marker input lines and under the
non-empty-name invariants. -/
theorem curaEmitStep_balance {known : Registry} {lastTE : Option String} {cur : Option String}
    {l : String} {frags : List String} {cur2 : Option String}
    (hK : ∀ e ∈ known, ¬e.2.name = "")
    (hcur : ∀ n, cur = some n → ¬n = "")
    (hl1 : isStartFrag l = false) (hl2 : isEndFrag l = false)
    (h : curaEmitStep known lastTE cur l = .ok (frags, cur2)) (fs : List String) :
    markersBalancedAux cur (frags ++ fs) = markersBalancedAux cur2 fs ∧
      (∀ n, cur2 = some n → ¬n = "") := by
  cases hms : curaMeshStage known cur l with
  | error e => exact absurd h (by simp [curaEmitStep, hms, ebind_error])
  | ok trip =>
      obtain ⟨mf, cur1, skip⟩ := trip
      have hout : frags = [l] ++ mf ++ (curaTimeStage lastTE cur1 l skip).1 ∧
          cur2 = (curaTimeStage lastTE cur1 l skip).2 := by
        have h2 := h
        simp only [curaEmitStep, hms, ebind_ok] at h2
        have h3 := Except.ok.inj h2
        exact ⟨(congrArg Prod.fst h3).symm, (congrArg Prod.snd h3).symm⟩
      obtain ⟨hbal1, hinv1⟩ := curaMeshStage_balance hK hcur hms
        ((curaTimeStage lastTE cur1 l skip).1 ++ fs)
      obtain ⟨hbal2, hinv2⟩ := curaTimeStage_balance lastTE cur1 l skip hinv1 fs
      constructor
      · rw [hout.1, hout.2]
        rw [show ([l] ++ mf ++ (curaTimeStage lastTE cur1 l skip).1) ++ fs
          = l :: (mf ++ ((curaTimeStage lastTE cur1 l skip).1 ++ fs)) from by
            simp [List.append_assoc]]
        rw [balAux_skip _ hl1 hl2, hbal1]
        exact hbal2
      · intro n hn
        exact hinv2 n (hout.2 ▸ hn)

/-- The Cura second emission loop produces balanced markers from any
valid state, for marker-free input lines. -/
theorem curaEmitGo_balance {known : Registry} {lastTE : Option String}
    (hK : ∀ e ∈ known, ¬e.2.name = "") (lines : List String)
    (hlines : ∀ l ∈ lines, isStartFrag l = false ∧ isEndFrag l = false) :
    ∀ (cur : Option String) (out : List String),
      (∀ n, cur = some n → ¬n = "") →
      curaEmitGo known lastTE cur lines = .ok out →
      markersBalancedAux cur out = true := by
  induction lines with
  | nil =>
      intro cur out hcur h
      cases cur with
      | none => rw [show out = [] from (Except.ok.inj h).symm]; rfl
      | some nm =>
          have ht : curTruthy (some nm) = true := strNeEmpty (hcur nm rfl)
          have hout : out = object_end_marker nm := by
            have h2 := h
            simp only [curaEmitGo, ht, if_true, Option.getD_some] at h2
            exact (Except.ok.inj h2).symm
          rw [hout]
          rw [show (object_end_marker nm : List String)
            = ("END_CURRENT_OBJECT NAME=" ++ nm ++ "\n") :: [] from rfl]
          rw [balAux_end nm]
          rfl
  | cons l ls ih =>
      intro cur out hcur h
      cases hstep : curaEmitStep known lastTE cur l with
      | error e => exact absurd h (by simp [curaEmitGo, hstep, ebind_error])
      | ok pr =>
          obtain ⟨f1, cur'⟩ := pr
          cases hrest : curaEmitGo known lastTE cur' ls with
          | error e => exact absurd h (by simp [curaEmitGo, hstep, hrest, ebind_ok, ebind_error])
          | ok f2 =>
              have hout : out = f1 ++ f2 := by
                have h2 := h
                simp only [curaEmitGo, hstep, hrest, ebind_ok] at h2
                exact (Except.ok.inj h2).symm
              obtain ⟨hbal, hinv⟩ := curaEmitStep_balance hK hcur
                (hlines l (List.mem_cons_self l ls)).1
                (hlines l (List.mem_cons_self l ls)).2 hstep f2
              rw [hout, hbal]
              exact ih (fun f hf => hlines f (List.mem_cons_of_mem l hf)) cur' f2 hinv hrest

/-- Both parts of the first-loop split consist of input lines. -/
theorem curaPhaseA_mem (lines : List String) :
    (∀ f ∈ (curaPhaseA lines).1, f ∈ lines) ∧ (∀ f ∈ (curaPhaseA lines).2, f ∈ lines) := by
  induction lines with
  | nil => constructor <;> intro f hf <;> cases hf
  | cons l ls ih =>
      by_cases hc : ((!(pyStrip l).data.isEmpty && !pyStartsWith l ";") = true)
      · constructor
        · intro f hf
          simp only [curaPhaseA, hc, if_true] at hf
          rw [List.mem_singleton.mp hf]
          exact List.mem_cons_self l ls
        · intro f hf
          simp only [curaPhaseA, hc, if_true] at hf
          exact List.mem_cons_of_mem l hf
      · constructor
        · intro f hf
          simp only [curaPhaseA, hc, Bool.false_eq_true, if_false] at hf
          rcases List.mem_cons.mp hf with hf | hf
          · rw [hf]; exact List.mem_cons_self l ls
          · exact List.mem_cons_of_mem l (ih.1 f hf)
        · intro f hf
          simp only [curaPhaseA, hc, Bool.false_eq_true, if_false] at hf
          exact List.mem_cons_of_mem l (ih.2 f hf)

/-- The Cura parser's successful output has balanced markers when the
input carries no marker-prefixed lines and every registered sanitized
name is non-empty. -/
theorem preprocess_cura_balanced {lines : List String} {out : List String}
    (hlines : ∀ l ∈ lines, isStartFrag l = false ∧ isEndFrag l = false)
    (hnames : curaNamesNonEmpty lines = true)
    (h : preprocess_cura lines = .ok out) :
    markersBalanced out = true := by
  cases hscan : curaScanGo [] none none lines with
  | error e => exact absurd h (by simp [preprocess_cura, hscan, ebind_error])
  | ok pr =>
      obtain ⟨known, lastTE⟩ := pr
      have hK : ∀ e ∈ known, ¬e.2.name = "" := by
        intro e he
        unfold curaNamesNonEmpty at hnames
        rw [hscan] at hnames
        have h2 := (List.all_eq_true.mp hnames) e he
        intro hne
        rw [hne] at h2
        simp at h2
      cases hdefs : regDefines known with
      | error e => exact absurd h (by simp [preprocess_cura, hscan, hdefs, ebind_ok, ebind_error])
      | ok ds =>
          cases hb : curaEmitGo known lastTE none (curaPhaseA lines).2 with
          | error e =>
              exact absurd h
                (by simp [preprocess_cura, hscan, hdefs, hb, ebind_ok, ebind_error])
          | ok bf =>
              have hout : out = (curaPhaseA lines).1 ++ headerFrags (regLen known : Int)
                  ++ ds ++ bf := by
                have h2 := h
                simp only [preprocess_cura, hscan, hdefs, hb, ebind_ok] at h2
                exact (Except.ok.inj h2).symm
              rw [hout]
              unfold markersBalanced
              rw [show ((curaPhaseA lines).1 ++ headerFrags (regLen known : Int) ++ ds ++ bf)
                = (curaPhaseA lines).1 ++ (headerFrags (regLen known : Int) ++ (ds ++ bf)) from by
                  simp [List.append_assoc]]
              rw [balAux_skips none (fun f hf => hlines f ((curaPhaseA_mem lines).1 f hf))]
              rw [balAux_skips none (headerFrags_not_markers (regLen known : Int))]
              rw [balAux_skips none (regDefines_not_markers hdefs)]
              exact curaEmitGo_balance hK (curaPhaseA lines).2
                (fun f hf => hlines f ((curaPhaseA_mem lines).2 f hf)) none bf
                (fun n hn => by cases hn) hb

/-- Counterexample to C10 as stated: on a Cura file whose mesh name `!`
sanitizes to the empty string, the emission pass succeeds but emits a
`START_CURRENT_OBJECT` that is never closed — the empty name makes every
`if current_object:` close check falsy — so the markers are not balanced
(the input itself contains no marker lines, so every marker in the output
was emitted by the pass). -/
theorem C10_markers_counterexample :
    preprocess_cura curaCexLines = .ok curaCexOut ∧
      markersBalanced curaCexOut = false ∧
      (curaCexLines.all (fun l => !isStartFrag l && !isEndFrag l)) = true :=
  ⟨by decide, by decide, by decide⟩

/-- C10 as amended: in the Cura and IdeaMaker emission passes the
emitted start/end markers are balanced and alternating — each start is
emitted with no object open, each end closes the object the preceding
start opened, and an object still open at the end of the input is closed
exactly once — for inputs that do not themselves contain marker-prefixed
lines, and (for Cura only) provided every registered object's sanitized
name is non-empty; an empty name is falsy in Cura's string truthiness
checks and its object is opened but never closed. -/
theorem C10_markers_balanced_amended :
    (∀ (lines out : List String),
       (∀ l ∈ lines, isStartFrag l = false ∧ isEndFrag l = false) →
       curaNamesNonEmpty lines = true →
       preprocess_cura lines = .ok out → markersBalanced out = true) ∧
    (∀ (lines out : List String),
       (∀ l ∈ lines, isStartFrag l = false ∧ isEndFrag l = false) →
       preprocess_ideamaker lines = .ok out → markersBalanced out = true) :=
  ⟨fun _ _ hl hn h => preprocess_cura_balanced hl hn h,
   fun _ _ hl h => preprocess_ideamaker_balanced hl h⟩

/-- Witness for the amended C10 at concrete Cura and IdeaMaker files. -/
theorem C10_markers_balanced_amended_witness :
    markersBalanced [";MESH:a\n", "G1 X1 Y1 E1\n", "\n\n",
      "; Pre-Processed for Cancel-Object support\n", "; 1 known objects\n",
      "DEFINE_OBJECT NAME=a", " CENTER=1.5,1.5",
      " POLYGON=[[1.0,1.0],[1.0,2.0],[2.0,2.0],[2.0,1.0]]", "\n", ";MESH:a\n",
      "START_CURRENT_OBJECT NAME=a\n", "G1 X2 Y2 E1\n",
      "END_CURRENT_OBJECT NAME=a\n"] = true ∧
    markersBalanced [";TOTAL_NUM: 1\n", "\n\n",
      "; Pre-Processed for Cancel-Object support\n", "; 1 known objects\n",
      "DEFINE_OBJECT NAME=a", "\n", ";PRINTING: a\n", ";PRINTING_ID: 0\n",
      "START_CURRENT_OBJECT NAME=a\n", ";REMAINING_TIME: 0\n",
      "END_CURRENT_OBJECT NAME=a\n"] = true :=
  ⟨C10_markers_balanced_amended.1 curaWitLines _ (by decide) (by decide) (by decide),
   C10_markers_balanced_amended.2 ideaWitLines _ (by decide) (by decide)⟩
